import Mathlib

/-!
# DxfReader: the streaming tag-value reader of `src/tailor/dxf/DxfReader.cpp`

A shallow embedding of `DxfReader::readAll` and of the record readers it
dispatches to.  The reader consumes a sequence of (group code, value) pairs and
calls the document sink once per record.

Conventions of the embedding

* The device is the list of pairs not read yet.  `code()` and `value()` are the
  components of the pair read last; the readers receive that pair as `cur`.
* Everything a run lets the outside observe is collected, in order, in a list
  of `Output`: the calls made on the sink, the lines written with `qDebug()`,
  and the `Q_ASSERT`s whose condition was false.
* `Q_ASSERT` does not change the control flow (it is compiled out of a release
  build); a false condition is recorded as `Output.assertFailed`, which is where
  a debug build stops.
* A `double` is represented by the exact rational value of its decimal text;
  rounding to binary64 and the non-finite values are outside the model.
-/

namespace DxfReader

/-! ## Data model -/

/-- One line pair of the wire format: the group code and the value text. -/
abbrev Pair := Int × String

/-- Modelled from the spec: `DxfBlock` of DxfModel.h (name, layer, integer flag
bitmask, insertion point with default 0.0); a created record is zero-valued. -/
structure DxfBlock where
  layer : String := ""
  name : String := ""
  flags : Int := 0
  x : ℚ := 0
  y : ℚ := 0
  z : ℚ := 0
deriving DecidableEq, Repr

/-- Modelled from the spec: `DxfInsert` of DxfModel.h (referenced block name,
layer, insertion point); a created record is zero-valued. -/
structure DxfInsert where
  block : String := ""
  layer : String := ""
  x : ℚ := 0
  y : ℚ := 0
  z : ℚ := 0
deriving DecidableEq, Repr

/-- Modelled from the spec: `DxfText` of DxfModel.h (content, layer, position,
size, rotation with default 0); a created record is zero-valued. -/
structure DxfText where
  text : String := ""
  layer : String := ""
  x : ℚ := 0
  y : ℚ := 0
  z : ℚ := 0
  size : ℚ := 0
  rotation : ℚ := 0
deriving DecidableEq, Repr

/-- Modelled from the spec: `DxfLine` of DxfModel.h (layer, start point, end
point); a created record is zero-valued. -/
structure DxfLine where
  layer : String := ""
  x1 : ℚ := 0
  y1 : ℚ := 0
  z1 : ℚ := 0
  x2 : ℚ := 0
  y2 : ℚ := 0
  z2 : ℚ := 0
deriving DecidableEq, Repr

/-- Modelled from the spec: `DxfPoint` of DxfModel.h (layer, position); a
created record is zero-valued. -/
structure DxfPoint where
  layer : String := ""
  x : ℚ := 0
  y : ℚ := 0
  z : ℚ := 0
deriving DecidableEq, Repr

/-- Modelled from the spec: `DxfPolyline` of DxfModel.h as the reader fills it
(layer, raw flag bitmask); its vertices are appended by the sink. -/
structure DxfPolyline where
  layer : String := ""
  flags : Int := 0
deriving DecidableEq, Repr

/-- Modelled from the spec: `DxfVertex` of DxfModel.h (layer, x, y, flag
bitmask; no z); a created record is zero-valued. -/
structure DxfVertex where
  layer : String := ""
  x : ℚ := 0
  y : ℚ := 0
  flags : Int := 0
deriving DecidableEq, Repr

/-- The argument of `addENTITY`, which is overloaded over the entity kinds. -/
inductive DxfEntity where
  | insert (e : DxfInsert)
  | text (e : DxfText)
  | line (e : DxfLine)
  | point (e : DxfPoint)
  | polyline (e : DxfPolyline)
deriving DecidableEq, Repr

/-- A call made on the document sink. -/
inductive Event where
  | addSECTION (name : String)
  | addENDSEC
  | addBLOCK (block : DxfBlock)
  | addENDBLK
  | addENTITY (entity : DxfEntity)
  | addVERTEX (vertex : DxfVertex)
  | addSEQEND
deriving DecidableEq, Repr

/-- A line written with `qDebug()`: `unknown` by the dispatcher, `unhandled` by
a record reader (`func` stands for `Q_FUNC_INFO`, the name of the reader). -/
inductive Diag where
  | unknown (value : String)
  | unhandled (code : Int) (value : String) (func : String)
deriving DecidableEq, Repr

/-- What a run lets the outside observe, in the order it happens. -/
inductive Output where
  | sink (e : Event)
  | debug (d : Diag)
  | assertFailed (expr : String)
deriving DecidableEq, Repr

/-- The outcome of a reader: what it did and the pairs it left unread. -/
structure Run where
  out : List Output
  rest : List Pair
deriving DecidableEq, Repr

/-- `Q_ASSERT(cond)`: nothing when the condition holds, a recorded failure
otherwise. -/
def Q_ASSERT (cond : Bool) (expr : String) : List Output :=
  if cond then [] else [Output.assertFailed expr]

/-! ## Numeric coercion (`QString::toInt`, `QString::toDouble`) -/

/-- Strip the white space around a text. -/
def trimmed (cs : List Char) : List Char :=
  ((cs.dropWhile Char.isWhitespace).reverse.dropWhile Char.isWhitespace).reverse

/-- The number written by a run of decimal digits. -/
def natOfDigits (cs : List Char) : Nat :=
  cs.foldl (fun n c => 10 * n + (c.toNat - 48)) 0

/-- Split an optional sign off: whether the sign is minus, and what follows. -/
def splitSign : List Char → Bool × List Char
  | '-' :: t => (true, t)
  | '+' :: t => (false, t)
  | cs => (false, cs)

/-- A signed run of at least one decimal digit. -/
def parseInteger (cs : List Char) : Option Int :=
  let s := splitSign cs
  if s.2 ≠ [] ∧ s.2.all Char.isDigit = true then
    some (if s.1 then -(natOfDigits s.2 : Int) else (natOfDigits s.2 : Int))
  else none

/-- A decimal text `[sign] digits [. digits] [e [sign] digits]` with at least
one digit in the mantissa, as mantissa and power of ten. -/
def parseDecimal (cs : List Char) : Option (Int × Int) :=
  let s := splitSign cs
  let notE : Char → Bool := fun c => !(c == 'e' || c == 'E')
  let mant := s.2.takeWhile notE
  let ip := mant.takeWhile Char.isDigit
  let frac : Option (List Char) :=
    match mant.dropWhile Char.isDigit with
    | [] => some []
    | '.' :: f => if f.all Char.isDigit then some f else none
    | _ => none
  let ex : Option Int :=
    match s.2.dropWhile notE with
    | [] => some 0
    | _ :: e => parseInteger e
  match frac, ex with
  | some f, some e =>
    if ip ++ f ≠ [] then
      some ((if s.1 then -(natOfDigits (ip ++ f) : Int) else (natOfDigits (ip ++ f) : Int)),
        e - (f.length : Int))
    else none
  | _, _ => none

/-- The value `m * 10 ^ e` of a decimal. -/
def decimalValue (d : Int × Int) : ℚ :=
  if 0 ≤ d.2 then (d.1 : ℚ) * (10 : ℚ) ^ d.2.toNat else (d.1 : ℚ) / (10 : ℚ) ^ (-d.2).toNat

/-- The conversion `QString::toInt` attempts: a base-10 integer that fits an
`int`, white space around it ignored. -/
def parseInt (s : String) : Option Int :=
  match parseInteger (trimmed s.toList) with
  | some n => if -2147483648 ≤ n ∧ n ≤ 2147483647 then some n else none
  | none => none

/-- The conversion `QString::toDouble` attempts: a decimal text, white space
around it ignored. -/
def parseDouble (s : String) : Option ℚ :=
  (parseDecimal (trimmed s.toList)).map decimalValue

/-- Modelled from the spec: `QString::toInt()` (Qt, not under src/): integer
fields parse leniently, defaulting to 0 on non-numeric text. -/
def toInt (s : String) : Int :=
  (parseInt s).getD 0

/-- Modelled from the spec: `QString::toDouble()` (Qt, not under src/):
floating fields parse leniently, defaulting to 0.0 on non-numeric text. -/
def toDouble (s : String) : ℚ :=
  (parseDouble s).getD 0

/-! ## Tag source (`DxfLineReader`) -/

/-- Modelled from the spec: `DxfLineReader::readZero` (DxfLineReader.h is not
under src/), the `advanceAny` of the tag source: consumes and returns the next
pair, nothing at the end of the stream. -/
def readZero : List Pair → Option (Pair × List Pair)
  | [] => none
  | p :: src => some (p, src)

/-- Modelled from the spec: `DxfLineReader::readNoZero`, the `advanceIfNonZero`
of the tag source: consumes and returns the next pair only if its code is not
0; otherwise consumes nothing. -/
def readNoZero : List Pair → Option (Pair × List Pair)
  | [] => none
  | p :: src => if p.1 = 0 then none else some (p, src)

/-- The loop `while (readNoZero()) body`: `body` receives the loop's local
state and the pair just read, and returns the new state and what it wrote.
The result is the final state, everything written, and the unread pairs. -/
def whileReadNoZero {σ : Type} (body : σ → Pair → σ × List Output) :
    σ → List Pair → σ × List Output × List Pair
  | s, [] => (s, [], [])
  | s, p :: src =>
    if p.1 = 0 then (s, [], p :: src)
    else
      let b := body s p
      let r := whileReadNoZero body b.1 src
      (r.1, b.2 ++ r.2.1, r.2.2)

/-- Modelled from the spec: `DxfLineReader::skip`, the `skipToNextRecord` of
the tag source: repeatedly calls `readNoZero`, discarding the results. -/
def skip (src : List Pair) : List Pair :=
  (whileReadNoZero (fun (_ : Unit) _ => ((), [])) () src).2.2

/-! ## Record readers -/

/-- The body of the field loop of `readSECTION`. -/
def sectionField (name : String) (p : Pair) : String × List Output :=
  if p.1 = 2 then (p.2, Q_ASSERT (p.1 = 2) "code() == 2")
  else (name, [])

/-- `DxfReader::readSECTION`. -/
def readSECTION (cur : Pair) (src : List Pair) : Run :=
  let r := whileReadNoZero sectionField "" src
  { out := Q_ASSERT (cur.1 = 0) "code() == 0" ++ Q_ASSERT (cur.2 = "SECTION") "value() == SECTION"
      ++ r.2.1 ++ [Output.sink (Event.addSECTION r.1)],
    rest := r.2.2 }

/-- `DxfReader::readENDSEC`. -/
def readENDSEC (cur : Pair) (src : List Pair) : Run :=
  { out := Q_ASSERT (cur.1 = 0) "code() == 0" ++ Q_ASSERT (cur.2 = "ENDSEC") "value() == ENDSEC"
      ++ [Output.sink Event.addENDSEC],
    rest := skip src }

/-- The body of the field loop of `readBLOCK`. -/
def blockField (block : DxfBlock) (p : Pair) : DxfBlock × List Output :=
  if p.1 = 8 then ({ block with layer := p.2 }, [])
  else if p.1 = 2 then ({ block with name := p.2 }, [])
  else if p.1 = 70 then ({ block with flags := toInt p.2 }, [])
  else if p.1 = 10 then ({ block with x := toDouble p.2 }, [])
  else if p.1 = 20 then ({ block with y := toDouble p.2 }, [])
  else if p.1 = 30 then ({ block with z := toDouble p.2 }, [])
  else (block, [])

/-- `DxfReader::readBLOCK`. -/
def readBLOCK (cur : Pair) (src : List Pair) : Run :=
  let r := whileReadNoZero blockField {} src
  { out := Q_ASSERT (cur.1 = 0) "code() == 0" ++ Q_ASSERT (cur.2 = "BLOCK") "value() == BLOCK"
      ++ r.2.1 ++ [Output.sink (Event.addBLOCK r.1)],
    rest := r.2.2 }

/-- `DxfReader::readENDBLK`. -/
def readENDBLK (_cur : Pair) (src : List Pair) : Run :=
  { out := [Output.sink Event.addENDBLK], rest := skip src }

/-- The body of the field loop of `readINSERT`. -/
def insertField (insert : DxfInsert) (p : Pair) : DxfInsert × List Output :=
  if p.1 = 2 then ({ insert with block := p.2 }, [])
  else if p.1 = 8 then ({ insert with layer := p.2 }, [])
  else if p.1 = 10 then ({ insert with x := toDouble p.2 }, [])
  else if p.1 = 20 then ({ insert with y := toDouble p.2 }, [])
  else if p.1 = 30 then ({ insert with z := toDouble p.2 }, [])
  else (insert, [Output.debug (Diag.unhandled p.1 p.2 "readINSERT")])

/-- `DxfReader::readINSERT`. -/
def readINSERT (_cur : Pair) (src : List Pair) : Run :=
  let r := whileReadNoZero insertField {} src
  { out := r.2.1 ++ [Output.sink (Event.addENTITY (DxfEntity.insert r.1))], rest := r.2.2 }

/-- The body of the field loop of `readTEXT`. -/
def textField (text : DxfText) (p : Pair) : DxfText × List Output :=
  if p.1 = 1 then ({ text with text := p.2 }, [])
  else if p.1 = 7 then (text, [])
  else if p.1 = 8 then ({ text with layer := p.2 }, [])
  else if p.1 = 10 then ({ text with x := toDouble p.2 }, [])
  else if p.1 = 20 then ({ text with y := toDouble p.2 }, [])
  else if p.1 = 30 then ({ text with z := toDouble p.2 }, [])
  else if p.1 = 40 then ({ text with size := toDouble p.2 }, [])
  else if p.1 = 50 then ({ text with rotation := toDouble p.2 }, [])
  else (text, [Output.debug (Diag.unhandled p.1 p.2 "readTEXT")])

/-- `DxfReader::readTEXT`. -/
def readTEXT (cur : Pair) (src : List Pair) : Run :=
  let r := whileReadNoZero textField {} src
  { out := Q_ASSERT (cur.1 = 0) "code() == 0" ++ Q_ASSERT (cur.2 = "TEXT") "value() == TEXT"
      ++ r.2.1 ++ [Output.sink (Event.addENTITY (DxfEntity.text r.1))],
    rest := r.2.2 }

/-- The body of the field loop of `readLINE`. -/
def lineField (line : DxfLine) (p : Pair) : DxfLine × List Output :=
  let a := Q_ASSERT (p.1 ≠ 0) "code() != 0"
  if p.1 = 8 then ({ line with layer := p.2 }, a)
  else if p.1 = 10 then ({ line with x1 := toDouble p.2 }, a)
  else if p.1 = 20 then ({ line with y1 := toDouble p.2 }, a)
  else if p.1 = 30 then ({ line with z1 := toDouble p.2 }, a)
  else if p.1 = 11 then ({ line with x2 := toDouble p.2 }, a)
  else if p.1 = 21 then ({ line with y2 := toDouble p.2 }, a)
  else if p.1 = 31 then ({ line with z2 := toDouble p.2 }, a)
  else (line, a ++ [Output.debug (Diag.unhandled p.1 p.2 "readLINE")])

/-- `DxfReader::readLINE`. -/
def readLINE (cur : Pair) (src : List Pair) : Run :=
  let r := whileReadNoZero lineField {} src
  { out := Q_ASSERT (cur.1 = 0) "code() == 0" ++ Q_ASSERT (cur.2 = "LINE") "value() == LINE"
      ++ r.2.1 ++ [Output.sink (Event.addENTITY (DxfEntity.line r.1))],
    rest := r.2.2 }

/-- The body of the field loop of `readPOINT`. -/
def pointField (point : DxfPoint) (p : Pair) : DxfPoint × List Output :=
  if p.1 = 8 then ({ point with layer := p.2 }, [])
  else if p.1 = 10 then ({ point with x := toDouble p.2 }, [])
  else if p.1 = 20 then ({ point with y := toDouble p.2 }, [])
  else if p.1 = 30 then ({ point with z := toDouble p.2 }, [])
  else if p.1 = 38 then (point, [])
  else if p.1 = 39 then (point, [])
  else if p.1 = 50 then (point, [])
  else (point, [Output.debug (Diag.unhandled p.1 p.2 "readPOINT")])

/-- `DxfReader::readPOINT`. -/
def readPOINT (cur : Pair) (src : List Pair) : Run :=
  let r := whileReadNoZero pointField {} src
  { out := Q_ASSERT (cur.1 = 0) "code() == 0" ++ Q_ASSERT (cur.2 = "POINT") "value() == POINT"
      ++ r.2.1 ++ [Output.sink (Event.addENTITY (DxfEntity.point r.1))],
    rest := r.2.2 }

/-- The body of the field loop of `readPOLYLINE`. -/
def polylineField (polyline : DxfPolyline) (p : Pair) : DxfPolyline × List Output :=
  if p.1 = 66 then (polyline, [])
  else if p.1 = 8 then ({ polyline with layer := p.2 }, [])
  else if p.1 = 70 then ({ polyline with flags := toInt p.2 }, [])
  else (polyline, [Output.debug (Diag.unhandled p.1 p.2 "readPOLYLINE")])

/-- `DxfReader::readPOLYLINE`. -/
def readPOLYLINE (cur : Pair) (src : List Pair) : Run :=
  let r := whileReadNoZero polylineField {} src
  { out := Q_ASSERT (cur.1 = 0) "code() == 0"
      ++ Q_ASSERT (cur.2 = "POLYLINE") "value() == POLYLINE"
      ++ r.2.1 ++ [Output.sink (Event.addENTITY (DxfEntity.polyline r.1))],
    rest := r.2.2 }

/-- The body of the field loop of `readVERTEX`. -/
def vertexField (vertex : DxfVertex) (p : Pair) : DxfVertex × List Output :=
  if p.1 = 8 then ({ vertex with layer := p.2 }, [])
  else if p.1 = 10 then ({ vertex with x := toDouble p.2 }, [])
  else if p.1 = 20 then ({ vertex with y := toDouble p.2 }, [])
  else if p.1 = 70 then ({ vertex with flags := toInt p.2 }, [])
  else (vertex, [])

/-- `DxfReader::readVERTEX`. -/
def readVERTEX (cur : Pair) (src : List Pair) : Run :=
  let r := whileReadNoZero vertexField {} src
  { out := Q_ASSERT (cur.1 = 0) "code() == 0" ++ Q_ASSERT (cur.2 = "VERTEX") "value() == VERTEX"
      ++ r.2.1 ++ [Output.sink (Event.addVERTEX r.1)],
    rest := r.2.2 }

/-- `DxfReader::readSEQEND`. -/
def readSEQEND (cur : Pair) (src : List Pair) : Run :=
  { out := Q_ASSERT (cur.1 = 0) "code() == 0" ++ Q_ASSERT (cur.2 = "SEQEND") "value() == SEQEND"
      ++ [Output.sink Event.addSEQEND],
    rest := skip src }

/-! ## Dispatcher -/

/-- The body of the loop of `readAll` once `readZero` has delivered the pair
`cur`: the chain of comparisons of `value()`.  `none` is the `break` at EOF. -/
def readAllBody (cur : Pair) (src : List Pair) : Option Run :=
  if cur.2 = "EOF" then none
  else if cur.2 = "SECTION" then some (readSECTION cur src)
  else if cur.2 = "ENDSEC" then some (readENDSEC cur src)
  else if cur.2 = "BLOCK" then some (readBLOCK cur src)
  else if cur.2 = "ENDBLK" then some (readENDBLK cur src)
  else if cur.2 = "INSERT" then some (readINSERT cur src)
  else if cur.2 = "TEXT" then some (readTEXT cur src)
  else if cur.2 = "LINE" then some (readLINE cur src)
  else if cur.2 = "POINT" then some (readPOINT cur src)
  else if cur.2 = "POLYLINE" then some (readPOLYLINE cur src)
  else if cur.2 = "VERTEX" then some (readVERTEX cur src)
  else if cur.2 = "SEQEND" then some (readSEQEND cur src)
  else some { out := [Output.debug (Diag.unknown cur.2)], rest := skip src }

/-- `DxfReader::readAll`: `while (readZero())` with the assertion on the code
and the dispatch of `readAllBody`.  The first equation is `readZero` failing at
the end of the stream, the second is `readZero` delivering `cur`.  The run
returns when `readZero` fails or at the `break`; the result holds everything
observed and the pairs left unread. -/
def readAll : List Pair → Run
  | [] => { out := [], rest := [] }
  | cur :: src =>
    match h : readAllBody cur src with
    | none => { out := Q_ASSERT (cur.1 = 0) "code() == 0", rest := src }
    | some r =>
      let t := readAll r.rest
      { out := Q_ASSERT (cur.1 = 0) "code() == 0" ++ r.out ++ t.out, rest := t.rest }
termination_by src => src.length
decreasing_by
  have loop : ∀ (σ : Type) (body : σ → Pair → σ × List Output) (l : List Pair) (s : σ),
      (whileReadNoZero body s l).2.2.length ≤ l.length := by
    intro σ body l
    induction l with
    | nil => intro _; simp [whileReadNoZero]
    | cons p l ih =>
      intro s
      by_cases hp : p.1 = 0
      · simp [whileReadNoZero, hp]
      · simp only [whileReadNoZero, hp, if_false, List.length_cons]
        exact Nat.le_succ_of_le (ih _)
  have bound : ∀ (c : Pair) (l : List Pair) (q : Run),
      readAllBody c l = some q → q.rest.length ≤ l.length := by
    intro c l q
    have step : ∀ (P : Prop) [Decidable P] (a : Run) (o : Option Run),
        a.rest.length ≤ l.length → (o = some q → q.rest.length ≤ l.length) →
        (if P then some a else o) = some q → q.rest.length ≤ l.length := by
      intro P _ a o ha ho hq
      by_cases hP : P
      · rw [if_pos hP] at hq
        rw [← Option.some.inj hq]
        exact ha
      · rw [if_neg hP] at hq
        exact ho hq
    unfold readAllBody
    by_cases h0 : c.2 = "EOF"
    · rw [if_pos h0]
      intro hq
      exact absurd hq (by simp)
    · rw [if_neg h0]
      iterate 11 refine step _ _ _ (loop _ _ _ _) ?_
      intro hq
      rw [← Option.some.inj hq]
      exact loop _ _ _ _
  have hr := bound _ _ _ h
  simp only [List.length_cons]
  omega

/-! ## Vocabulary of the properties -/

/-- The calls made on the sink, in order. -/
def events (out : List Output) : List Event :=
  out.filterMap (fun o => match o with
    | Output.sink e => some e
    | _ => none)

/-- The lines written with `qDebug()`, in order. -/
def diags (out : List Output) : List Diag :=
  out.filterMap (fun o => match o with
    | Output.debug d => some d
    | _ => none)

/-- A field pair: a pair whose code is not 0. -/
def isField (p : Pair) : Bool := decide (p.1 ≠ 0)

/-- The body of the record at the head of a stream: the maximal run of field
pairs. -/
def fields (src : List Pair) : List Pair := src.takeWhile isField

/-- What follows the body of the record at the head of a stream. -/
def afterFields (src : List Pair) : List Pair := src.dropWhile isField

/-- A stream that is empty or begins with a code-0 pair. -/
def atBoundary : List Pair → Bool
  | [] => true
  | p :: _ => decide (p.1 = 0)

/-- The `Q_ASSERT`s that failed, in order. -/
def assertFailures (out : List Output) : List String :=
  out.filterMap (fun o => match o with
    | Output.assertFailed e => some e
    | _ => none)

/-- What the dispatch of the record `cur` with the body `body` lets observe
(nothing at the `break`). -/
def recordOut (cur : Pair) (body : List Pair) : List Output :=
  match readAllBody cur body with
  | some r => r.out
  | none => []

/-- The local state of a field loop after the pairs of `body`. -/
def runFields {σ : Type} (f : σ → Pair → σ × List Output) (s : σ) (body : List Pair) : σ :=
  body.foldl (fun s p => (f s p).1) s

/-- The value of the last pair of `body` with the code `c`, if there is one. -/
def lastValue (c : Int) : List Pair → Option String
  | [] => none
  | p :: body =>
    match lastValue c body with
    | some v => some v
    | none => if p.1 = c then some p.2 else none

/-- A string attribute fed by the code `c`: the value of the last pair with
that code, `d` when there is none. -/
def strAttr (c : Int) (body : List Pair) (d : String) : String :=
  (lastValue c body).getD d

/-- A floating attribute fed by the code `c`: the coerced value of the last pair
with that code, `d` when there is none. -/
def numAttr (c : Int) (body : List Pair) (d : ℚ) : ℚ :=
  ((lastValue c body).map toDouble).getD d

/-- An integer attribute fed by the code `c`: the coerced value of the last pair
with that code, `d` when there is none. -/
def intAttr (c : Int) (body : List Pair) (d : Int) : Int :=
  ((lastValue c body).map toInt).getD d

/-- The calls on the sink the record with keyword `kw` and body `body` stands
for: one call for each of the eleven known keywords, built from the local state
of the reader's field loop; none for EOF and for an unknown keyword. -/
def recordEvents (kw : String) (body : List Pair) : List Event :=
  if kw = "EOF" then []
  else if kw = "SECTION" then [Event.addSECTION (runFields sectionField "" body)]
  else if kw = "ENDSEC" then [Event.addENDSEC]
  else if kw = "BLOCK" then [Event.addBLOCK (runFields blockField {} body)]
  else if kw = "ENDBLK" then [Event.addENDBLK]
  else if kw = "INSERT" then [Event.addENTITY (DxfEntity.insert (runFields insertField {} body))]
  else if kw = "TEXT" then [Event.addENTITY (DxfEntity.text (runFields textField {} body))]
  else if kw = "LINE" then [Event.addENTITY (DxfEntity.line (runFields lineField {} body))]
  else if kw = "POINT" then [Event.addENTITY (DxfEntity.point (runFields pointField {} body))]
  else if kw = "POLYLINE" then
    [Event.addENTITY (DxfEntity.polyline (runFields polylineField {} body))]
  else if kw = "VERTEX" then [Event.addVERTEX (runFields vertexField {} body)]
  else if kw = "SEQEND" then [Event.addSEQEND]
  else []

/-- The field codes the reader of the record kind `kw` compares `code()` with. -/
def recognizedCodes (kw : String) : List Int :=
  if kw = "SECTION" then [2]
  else if kw = "BLOCK" then [8, 2, 70, 10, 20, 30]
  else if kw = "INSERT" then [2, 8, 10, 20, 30]
  else if kw = "TEXT" then [1, 7, 8, 10, 20, 30, 40, 50]
  else if kw = "LINE" then [8, 10, 20, 30, 11, 21, 31]
  else if kw = "POINT" then [8, 10, 20, 30, 38, 39, 50]
  else if kw = "POLYLINE" then [66, 8, 70]
  else if kw = "VERTEX" then [8, 10, 20, 70]
  else []

/-- The stream made of one record with the keyword `kw` for each of the bodies
given, in order. -/
def records (kw : String) : List (List Pair) → List Pair
  | [] => []
  | body :: more => (0, kw) :: body ++ records kw more

/-- The grouping marks: the opening and the closing of a section, of a block
and of a polyline. -/
inductive Mark where
  | sectionOpen
  | sectionClose
  | blockOpen
  | blockClose
  | polylineOpen
  | polylineClose
deriving DecidableEq, Repr

/-- The grouping mark of a call on the sink, if it opens or closes a group. -/
def eventMark : Event → Option Mark
  | Event.addSECTION _ => some Mark.sectionOpen
  | Event.addENDSEC => some Mark.sectionClose
  | Event.addBLOCK _ => some Mark.blockOpen
  | Event.addENDBLK => some Mark.blockClose
  | Event.addENTITY (DxfEntity.polyline _) => some Mark.polylineOpen
  | Event.addSEQEND => some Mark.polylineClose
  | _ => none

/-- The grouping mark of a record keyword, if it opens or closes a group. -/
def keywordMark (kw : String) : Option Mark :=
  if kw = "SECTION" then some Mark.sectionOpen
  else if kw = "ENDSEC" then some Mark.sectionClose
  else if kw = "BLOCK" then some Mark.blockOpen
  else if kw = "ENDBLK" then some Mark.blockClose
  else if kw = "POLYLINE" then some Mark.polylineOpen
  else if kw = "SEQEND" then some Mark.polylineClose
  else none

/-- The keywords of the records the dispatcher reads: the value of the first
pair and of every later code-0 pair, up to the first EOF. -/
def recordKeywords : List Pair → List String
  | [] => []
  | cur :: src =>
    (cur.2 :: (src.filter (fun p => decide (p.1 = 0))).map Prod.snd).takeWhile
      (fun v => decide (v ≠ "EOF"))

/-- Depth at most 1 for one grouping kind: no opening mark while the group is
open (`isOpen` tells whether it is open at the start). -/
def depthAtMostOne (opening closing : Mark) : Bool → List Mark → Bool
  | _, [] => true
  | isOpen, m :: ms =>
    if m = opening then !isOpen && depthAtMostOne opening closing true ms
    else if m = closing then depthAtMostOne opening closing false ms
    else depthAtMostOne opening closing isOpen ms

/-- Nesting depth at most 1 for Section, Block and Polyline: between two
openings of a kind there is a closing of that kind. -/
def nestingOK (ms : List Mark) : Bool :=
  depthAtMostOne Mark.sectionOpen Mark.sectionClose false ms &&
    depthAtMostOne Mark.blockOpen Mark.blockClose false ms &&
    depthAtMostOne Mark.polylineOpen Mark.polylineClose false ms

/-- A loop body with an iteration counter: the body `body`, and 1 added to the
counter each time it is run. -/
def counted {σ : Type} (body : σ → Pair → σ × List Output) :
    σ × Nat → Pair → (σ × Nat) × List Output :=
  fun st p => (((body st.1 p).1, st.2 + 1), (body st.1 p).2)

/-- The loop of `readAll` cut off after `fuel` iterations: `none` when the loop
has not exited by then.  With the run it returns the number of loop iterations
made: one for each iteration of the dispatcher, and for the reader it calls the
number of pairs that reader consumes (its field loop, or `skip`, consumes one
pair per iteration). -/
def readAllWithin : Nat → List Pair → Option (Run × Nat)
  | _, [] => some ({ out := [], rest := [] }, 0)
  | 0, _ :: _ => none
  | fuel + 1, cur :: src =>
    match readAllBody cur src with
    | none => some ({ out := Q_ASSERT (cur.1 = 0) "code() == 0", rest := src }, 1)
    | some r =>
      match readAllWithin fuel r.rest with
      | none => none
      | some t =>
        some ({ out := Q_ASSERT (cur.1 = 0) "code() == 0" ++ r.out ++ t.1.out, rest := t.1.rest },
          1 + (src.length - r.rest.length) + t.2)


/-! ## Reference parser of the record-boundary refinement -/

/-- Step 1 of the reference parser, read from the end of the stream: the
non-zero-code pairs not yet attached to a header, and the records found so far.
A code-0 pair closes a record: it takes the pending pairs as its body. -/
def Reference.splitAux : List Pair → List Pair × List (Pair × List Pair)
  | [] => ([], [])
  | p :: src =>
    if p.1 = 0 then ([], (p, (Reference.splitAux src).1) :: (Reference.splitAux src).2)
    else (p :: (Reference.splitAux src).1, (Reference.splitAux src).2)

/-- Step 1 of the reference parser: the stream split into records at every
code-0 pair, each record being its code-0 header and the maximal run of
non-zero-code pairs that follows it. -/
def Reference.splitRecords (src : List Pair) : List (Pair × List Pair) :=
  (Reference.splitAux src).2

/-- Step 3 of the reference parser, the pure function of one record: one call
on the sink for each of the eleven known keywords, with the attributes of the
field table (the last value of the code of the attribute, coerced; the zero
default when the body has no pair with that code), none for another keyword. -/
def Reference.recordCalls (kw : String) (body : List Pair) : List Event :=
  if kw = "SECTION" then [Event.addSECTION (strAttr 2 body "")]
  else if kw = "ENDSEC" then [Event.addENDSEC]
  else if kw = "BLOCK" then
    [Event.addBLOCK
      { layer := strAttr 8 body "", name := strAttr 2 body "", flags := intAttr 70 body 0,
        x := numAttr 10 body 0, y := numAttr 20 body 0, z := numAttr 30 body 0 }]
  else if kw = "ENDBLK" then [Event.addENDBLK]
  else if kw = "INSERT" then
    [Event.addENTITY (DxfEntity.insert
      { block := strAttr 2 body "", layer := strAttr 8 body "", x := numAttr 10 body 0,
        y := numAttr 20 body 0, z := numAttr 30 body 0 })]
  else if kw = "TEXT" then
    [Event.addENTITY (DxfEntity.text
      { text := strAttr 1 body "", layer := strAttr 8 body "", x := numAttr 10 body 0,
        y := numAttr 20 body 0, z := numAttr 30 body 0, size := numAttr 40 body 0,
        rotation := numAttr 50 body 0 })]
  else if kw = "LINE" then
    [Event.addENTITY (DxfEntity.line
      { layer := strAttr 8 body "", x1 := numAttr 10 body 0, y1 := numAttr 20 body 0,
        z1 := numAttr 30 body 0, x2 := numAttr 11 body 0, y2 := numAttr 21 body 0,
        z2 := numAttr 31 body 0 })]
  else if kw = "POINT" then
    [Event.addENTITY (DxfEntity.point
      { layer := strAttr 8 body "", x := numAttr 10 body 0, y := numAttr 20 body 0,
        z := numAttr 30 body 0 })]
  else if kw = "POLYLINE" then
    [Event.addENTITY (DxfEntity.polyline
      { layer := strAttr 8 body "", flags := intAttr 70 body 0 })]
  else if kw = "VERTEX" then
    [Event.addVERTEX
      { layer := strAttr 8 body "", x := numAttr 10 body 0, y := numAttr 20 body 0,
        flags := intAttr 70 body 0 }]
  else if kw = "SEQEND" then [Event.addSEQEND]
  else []

/-- The reference parser: (1) split the stream into records, (2) truncate the
list of records at the first record whose header value is "EOF", (3) map each
remaining record, independently of the others, to its calls on the sink. -/
def Reference.parse (src : List Pair) : List Event :=
  (((Reference.splitRecords src).takeWhile (fun r => decide (r.1.2 ≠ "EOF"))).map
    (fun r => Reference.recordCalls r.1.2 r.2)).foldr (fun es acc => es ++ acc) []

/-! ## The field loop -/

theorem whileReadNoZero_readNoZero {σ : Type} (body : σ → Pair → σ × List Output) (s : σ)
    (src : List Pair) :
    whileReadNoZero body s src =
      match readNoZero src with
      | none => (s, [], src)
      | some (p, src1) =>
        ((whileReadNoZero body (body s p).1 src1).1,
          (body s p).2 ++ (whileReadNoZero body (body s p).1 src1).2.1,
          (whileReadNoZero body (body s p).1 src1).2.2) := by
  cases src with
  | nil => simp [whileReadNoZero, readNoZero]
  | cons p t =>
    by_cases hp : p.1 = 0
    · simp [whileReadNoZero, readNoZero, hp]
    · simp [whileReadNoZero, readNoZero, hp]

theorem whileReadNoZero_rest {σ : Type} (body : σ → Pair → σ × List Output) (src : List Pair) :
    ∀ s : σ, (whileReadNoZero body s src).2.2 = afterFields src := by
  induction src with
  | nil => intro s; simp [whileReadNoZero, afterFields]
  | cons p t ih =>
    intro s
    by_cases hp : p.1 = 0
    · simp [whileReadNoZero, afterFields, isField, hp]
    · have := ih (body s p).1
      simp [whileReadNoZero, afterFields, isField, hp] at this ⊢
      exact this

theorem whileReadNoZero_fields {σ : Type} (body : σ → Pair → σ × List Output) (src : List Pair) :
    ∀ s : σ, whileReadNoZero body s src =
      ((whileReadNoZero body s (fields src)).1, (whileReadNoZero body s (fields src)).2.1,
        afterFields src) := by
  induction src with
  | nil => intro s; simp [whileReadNoZero, afterFields, fields]
  | cons p t ih =>
    intro s
    by_cases hp : p.1 = 0
    · simp [whileReadNoZero, afterFields, fields, isField, hp]
    · have hf : fields (p :: t) = p :: fields t := by simp [fields, isField, hp]
      have ha : afterFields (p :: t) = afterFields t := by simp [afterFields, isField, hp]
      rw [hf, ha]
      simp only [whileReadNoZero, hp, if_false]
      rw [ih (body s p).1]

theorem whileReadNoZero_state {σ : Type} (body : σ → Pair → σ × List Output) (src : List Pair) :
    ∀ s : σ, (whileReadNoZero body s src).1 = (fields src).foldl (fun s p => (body s p).1) s := by
  induction src with
  | nil => intro s; simp [whileReadNoZero, fields]
  | cons p t ih =>
    intro s
    by_cases hp : p.1 = 0
    · simp [whileReadNoZero, fields, isField, hp]
    · have := ih (body s p).1
      simp [whileReadNoZero, fields, isField, hp] at this ⊢
      exact this


theorem fields_append (body rest : List Pair) (hb : ∀ p ∈ body, p.1 ≠ 0)
    (hr : atBoundary rest = true) : fields (body ++ rest) = body := by
  induction body with
  | nil =>
    cases rest with
    | nil => simp [fields]
    | cons q t =>
      have hq : q.1 = 0 := by simpa [atBoundary] using hr
      simp [fields, isField, hq]
  | cons p t ih =>
    have hp : p.1 ≠ 0 := hb p (List.mem_cons_self _ _)
    have := ih (fun q hq => hb q (List.mem_cons_of_mem _ hq))
    simp only [fields] at this
    simp [fields, isField, hp, this]

theorem afterFields_append (body rest : List Pair) (hb : ∀ p ∈ body, p.1 ≠ 0)
    (hr : atBoundary rest = true) : afterFields (body ++ rest) = rest := by
  induction body with
  | nil =>
    cases rest with
    | nil => simp [afterFields]
    | cons q t =>
      have hq : q.1 = 0 := by simpa [atBoundary] using hr
      simp [afterFields, isField, hq]
  | cons p t ih =>
    have hp : p.1 ≠ 0 := hb p (List.mem_cons_self _ _)
    have := ih (fun q hq => hb q (List.mem_cons_of_mem _ hq))
    simp only [afterFields] at this
    simp [afterFields, isField, hp, this]

theorem fields_isField (src : List Pair) : ∀ p ∈ fields src, p.1 ≠ 0 := by
  intro p hp
  have := List.mem_takeWhile_imp hp
  simpa [isField] using this

theorem atBoundary_afterFields (src : List Pair) : atBoundary (afterFields src) = true := by
  induction src with
  | nil => simp [afterFields, atBoundary]
  | cons p t ih =>
    by_cases hp : p.1 = 0
    · simp [afterFields, isField, hp, atBoundary]
    · simpa [afterFields, isField, hp] using ih

theorem fields_append_afterFields (src : List Pair) : fields src ++ afterFields src = src := by
  simp [fields, afterFields]

theorem afterFields_length_le (src : List Pair) : (afterFields src).length ≤ src.length := by
  have h := congrArg List.length (fields_append_afterFields src)
  simp only [List.length_append] at h
  omega

theorem skip_eq (src : List Pair) : skip src = afterFields src := by
  simp [skip, whileReadNoZero_rest]

/-- Every branch of the dispatch reads the body of the record and nothing else:
its outputs depend on the body only, and it leaves what follows the body. -/
theorem readAllBody_fields (cur : Pair) (src : List Pair) :
    readAllBody cur src =
      (readAllBody cur (fields src)).map (fun r => { out := r.out, rest := afterFields src }) := by
  have hs : ∀ l : List Pair, skip l = afterFields l := skip_eq
  have key : ∀ (σ : Type) (body : σ → Pair → σ × List Output) (s : σ),
      whileReadNoZero body s src =
        ((whileReadNoZero body s (fields src)).1, (whileReadNoZero body s (fields src)).2.1,
          afterFields src) := fun σ body s => whileReadNoZero_fields body src s
  unfold readAllBody
  by_cases h0 : cur.2 = "EOF"
  · simp [h0]
  rw [if_neg h0, if_neg h0]
  by_cases h1 : cur.2 = "SECTION"
  · simp only [if_pos h1, Option.map_some', readSECTION]
    rw [key]
  rw [if_neg h1, if_neg h1]
  by_cases h2 : cur.2 = "ENDSEC"
  · simp only [if_pos h2, Option.map_some', readENDSEC, hs]
  rw [if_neg h2, if_neg h2]
  by_cases h3 : cur.2 = "BLOCK"
  · simp only [if_pos h3, Option.map_some', readBLOCK]
    rw [key]
  rw [if_neg h3, if_neg h3]
  by_cases h4 : cur.2 = "ENDBLK"
  · simp only [if_pos h4, Option.map_some', readENDBLK, hs]
  rw [if_neg h4, if_neg h4]
  by_cases h5 : cur.2 = "INSERT"
  · simp only [if_pos h5, Option.map_some', readINSERT]
    rw [key]
  rw [if_neg h5, if_neg h5]
  by_cases h6 : cur.2 = "TEXT"
  · simp only [if_pos h6, Option.map_some', readTEXT]
    rw [key]
  rw [if_neg h6, if_neg h6]
  by_cases h7 : cur.2 = "LINE"
  · simp only [if_pos h7, Option.map_some', readLINE]
    rw [key]
  rw [if_neg h7, if_neg h7]
  by_cases h8 : cur.2 = "POINT"
  · simp only [if_pos h8, Option.map_some', readPOINT]
    rw [key]
  rw [if_neg h8, if_neg h8]
  by_cases h9 : cur.2 = "POLYLINE"
  · simp only [if_pos h9, Option.map_some', readPOLYLINE]
    rw [key]
  rw [if_neg h9, if_neg h9]
  by_cases h10 : cur.2 = "VERTEX"
  · simp only [if_pos h10, Option.map_some', readVERTEX]
    rw [key]
  rw [if_neg h10, if_neg h10]
  by_cases h11 : cur.2 = "SEQEND"
  · simp only [if_pos h11, Option.map_some', readSEQEND, hs]
  rw [if_neg h11, if_neg h11]
  simp only [Option.map_some', hs]


theorem readAll_nil : readAll [] = { out := [], rest := [] } := by
  rw [readAll]

theorem readAll_cons (cur : Pair) (src : List Pair) :
    readAll (cur :: src) =
      match readAllBody cur src with
      | none => { out := Q_ASSERT (cur.1 = 0) "code() == 0", rest := src }
      | some r =>
        { out := Q_ASSERT (cur.1 = 0) "code() == 0" ++ r.out ++ (readAll r.rest).out,
          rest := (readAll r.rest).rest } := by
  rw [readAll]
  split <;> rename_i h <;> rw [h]

/-- The loop of `readAll` in terms of `readZero`. -/
theorem readAll_readZero (src : List Pair) :
    readAll src =
      match readZero src with
      | none => { out := [], rest := [] }
      | some (cur, src1) =>
        match readAllBody cur src1 with
        | none => { out := Q_ASSERT (cur.1 = 0) "code() == 0", rest := src1 }
        | some r =>
          { out := Q_ASSERT (cur.1 = 0) "code() == 0" ++ r.out ++ (readAll r.rest).out,
            rest := (readAll r.rest).rest } := by
  cases src with
  | nil => rw [readAll_nil]; rfl
  | cons cur t => rw [readAll_cons]; rfl

/-- Case analysis along the chain of comparisons of the dispatcher. -/
theorem readAllBody_cases (motive : Option Run → Prop) (cur : Pair) (src : List Pair)
    (hEOF : cur.2 = "EOF" → motive none)
    (hSECTION : cur.2 = "SECTION" → motive (some (readSECTION cur src)))
    (hENDSEC : cur.2 = "ENDSEC" → motive (some (readENDSEC cur src)))
    (hBLOCK : cur.2 = "BLOCK" → motive (some (readBLOCK cur src)))
    (hENDBLK : cur.2 = "ENDBLK" → motive (some (readENDBLK cur src)))
    (hINSERT : cur.2 = "INSERT" → motive (some (readINSERT cur src)))
    (hTEXT : cur.2 = "TEXT" → motive (some (readTEXT cur src)))
    (hLINE : cur.2 = "LINE" → motive (some (readLINE cur src)))
    (hPOINT : cur.2 = "POINT" → motive (some (readPOINT cur src)))
    (hPOLYLINE : cur.2 = "POLYLINE" → motive (some (readPOLYLINE cur src)))
    (hVERTEX : cur.2 = "VERTEX" → motive (some (readVERTEX cur src)))
    (hSEQEND : cur.2 = "SEQEND" → motive (some (readSEQEND cur src)))
    (hUnknown : cur.2 ∉ ["EOF", "SECTION", "ENDSEC", "BLOCK", "ENDBLK", "INSERT", "TEXT", "LINE",
        "POINT", "POLYLINE", "VERTEX", "SEQEND"] →
      motive (some { out := [Output.debug (Diag.unknown cur.2)], rest := skip src })) :
    motive (readAllBody cur src) := by
  unfold readAllBody
  by_cases h0 : cur.2 = "EOF"
  · rw [if_pos h0]; exact hEOF h0
  rw [if_neg h0]
  by_cases h1 : cur.2 = "SECTION"
  · rw [if_pos h1]; exact hSECTION h1
  rw [if_neg h1]
  by_cases h2 : cur.2 = "ENDSEC"
  · rw [if_pos h2]; exact hENDSEC h2
  rw [if_neg h2]
  by_cases h3 : cur.2 = "BLOCK"
  · rw [if_pos h3]; exact hBLOCK h3
  rw [if_neg h3]
  by_cases h4 : cur.2 = "ENDBLK"
  · rw [if_pos h4]; exact hENDBLK h4
  rw [if_neg h4]
  by_cases h5 : cur.2 = "INSERT"
  · rw [if_pos h5]; exact hINSERT h5
  rw [if_neg h5]
  by_cases h6 : cur.2 = "TEXT"
  · rw [if_pos h6]; exact hTEXT h6
  rw [if_neg h6]
  by_cases h7 : cur.2 = "LINE"
  · rw [if_pos h7]; exact hLINE h7
  rw [if_neg h7]
  by_cases h8 : cur.2 = "POINT"
  · rw [if_pos h8]; exact hPOINT h8
  rw [if_neg h8]
  by_cases h9 : cur.2 = "POLYLINE"
  · rw [if_pos h9]; exact hPOLYLINE h9
  rw [if_neg h9]
  by_cases h10 : cur.2 = "VERTEX"
  · rw [if_pos h10]; exact hVERTEX h10
  rw [if_neg h10]
  by_cases h11 : cur.2 = "SEQEND"
  · rw [if_pos h11]; exact hSEQEND h11
  rw [if_neg h11]
  apply hUnknown
  intro hmem
  rcases List.mem_cons.1 hmem with h | hmem
  · exact h0 h
  rcases List.mem_cons.1 hmem with h | hmem
  · exact h1 h
  rcases List.mem_cons.1 hmem with h | hmem
  · exact h2 h
  rcases List.mem_cons.1 hmem with h | hmem
  · exact h3 h
  rcases List.mem_cons.1 hmem with h | hmem
  · exact h4 h
  rcases List.mem_cons.1 hmem with h | hmem
  · exact h5 h
  rcases List.mem_cons.1 hmem with h | hmem
  · exact h6 h
  rcases List.mem_cons.1 hmem with h | hmem
  · exact h7 h
  rcases List.mem_cons.1 hmem with h | hmem
  · exact h8 h
  rcases List.mem_cons.1 hmem with h | hmem
  · exact h9 h
  rcases List.mem_cons.1 hmem with h | hmem
  · exact h10 h
  rcases List.mem_cons.1 hmem with h | hmem
  · exact h11 h
  · exact absurd hmem (List.not_mem_nil _)

theorem readAllBody_eq_none (cur : Pair) (src : List Pair) :
    readAllBody cur src = none ↔ cur.2 = "EOF" := by
  constructor
  · intro h
    by_contra hne
    revert h
    refine readAllBody_cases (fun o => o = none → False) cur src ?_ ?_ ?_ ?_ ?_ ?_ ?_ ?_ ?_ ?_ ?_ ?_ ?_
    · intro h; exact absurd h hne
    all_goals intro _ h; exact Option.some_ne_none _ h
  · intro h
    unfold readAllBody
    rw [if_pos h]

theorem readAll_EOF (c : Int) (src : List Pair) :
    readAll ((c, "EOF") :: src) = { out := Q_ASSERT (c = 0) "code() == 0", rest := src } := by
  rw [readAll_cons, (readAllBody_eq_none _ _).2 rfl]

/-- The stream-level equation of the dispatcher: a record that is not EOF
contributes the outputs of its reader on its body, and the run continues with
what follows the body. -/
theorem readAll_record (cur : Pair) (src : List Pair) (h : cur.2 ≠ "EOF") :
    ∃ r, readAllBody cur (fields src) = some r ∧
      readAll (cur :: src) =
        { out := Q_ASSERT (cur.1 = 0) "code() == 0" ++ r.out ++ (readAll (afterFields src)).out,
          rest := (readAll (afterFields src)).rest } := by
  cases hb : readAllBody cur (fields src) with
  | none => exact absurd ((readAllBody_eq_none _ _).1 hb) h
  | some r =>
    refine ⟨r, rfl, ?_⟩
    rw [readAll_cons, readAllBody_fields, hb]
    rfl


theorem events_append (a b : List Output) : events (a ++ b) = events a ++ events b := by
  simp [events]

theorem diags_append (a b : List Output) : diags (a ++ b) = diags a ++ diags b := by
  simp [diags]

theorem assertFailures_append (a b : List Output) :
    assertFailures (a ++ b) = assertFailures a ++ assertFailures b := by
  simp [assertFailures]

theorem Q_ASSERT_true (expr : String) : Q_ASSERT true expr = [] := rfl

theorem events_Q_ASSERT (c : Bool) (expr : String) : events (Q_ASSERT c expr) = [] := by
  cases c <;> rfl

theorem diags_Q_ASSERT (c : Bool) (expr : String) : diags (Q_ASSERT c expr) = [] := by
  cases c <;> rfl

/-- Streams are consumed record by record: a property that holds of the empty
stream and passes from what follows the body of the first record to the whole
stream holds of every stream. -/
theorem stream_induction (motive : List Pair → Prop) (hnil : motive [])
    (hcons : ∀ cur src, motive (afterFields src) → motive (cur :: src)) :
    ∀ src, motive src := by
  have main : ∀ n : Nat, ∀ src : List Pair, src.length ≤ n → motive src := by
    intro n
    induction n with
    | zero =>
      intro src h
      have : src = [] := List.length_eq_zero.1 (Nat.le_zero.1 h)
      rw [this]; exact hnil
    | succ n ih =>
      intro src h
      cases src with
      | nil => exact hnil
      | cons cur t =>
        apply hcons
        apply ih
        have := afterFields_length_le t
        simp only [List.length_cons] at h
        omega
  intro src
  exact main src.length src (Nat.le_refl _)

theorem fields_append_boundary (src x : List Pair) (hx : atBoundary x = true) :
    fields (src ++ x) = fields src := by
  induction src with
  | nil =>
    cases x with
    | nil => rfl
    | cons q t =>
      have hq : q.1 = 0 := by simpa [atBoundary] using hx
      simp [fields, isField, hq]
  | cons p t ih =>
    by_cases hp : p.1 = 0
    · simp [fields, isField, hp]
    · simp only [fields] at ih
      simp [fields, isField, hp, ih]

theorem afterFields_append_boundary (src x : List Pair) (hx : atBoundary x = true) :
    afterFields (src ++ x) = afterFields src ++ x := by
  induction src with
  | nil =>
    cases x with
    | nil => rfl
    | cons q t =>
      have hq : q.1 = 0 := by simpa [atBoundary] using hx
      simp [afterFields, isField, hq]
  | cons p t ih =>
    by_cases hp : p.1 = 0
    · simp [afterFields, isField, hp]
    · simp only [afterFields] at ih
      simp [afterFields, isField, hp, ih]

theorem atBoundary_append (a x : List Pair) (ha : atBoundary a = true) (hx : atBoundary x = true) :
    atBoundary (a ++ x) = true := by
  cases a with
  | nil => simpa using hx
  | cons p t => simpa [atBoundary] using ha

theorem mem_of_mem_afterFields {p : Pair} {src : List Pair} (h : p ∈ afterFields src) :
    p ∈ src := by
  have : p ∈ fields src ++ afterFields src := List.mem_append_right _ h
  rwa [fields_append_afterFields] at this

/-- The equation of the dispatcher with `recordOut`. -/
theorem readAll_step (cur : Pair) (src : List Pair) (h : cur.2 ≠ "EOF") :
    readAll (cur :: src) =
      { out := Q_ASSERT (cur.1 = 0) "code() == 0" ++ recordOut cur (fields src)
          ++ (readAll (afterFields src)).out,
        rest := (readAll (afterFields src)).rest } := by
  obtain ⟨r, hr, e⟩ := readAll_record cur src h
  rw [e, recordOut, hr]

/-- Append law: a stream without a terminal record is read to its end, and the
run goes on with whatever follows it. -/
theorem readAll_append (pre x : List Pair) (hx : atBoundary x = true) :
    atBoundary pre = true → ((0 : Int), "EOF") ∉ pre →
    readAll (pre ++ x) =
      { out := (readAll pre).out ++ (readAll x).out, rest := (readAll x).rest } := by
  induction pre using stream_induction with
  | hnil =>
    intro _ _
    simp [readAll_nil]
  | hcons cur src ih =>
    intro hb hne
    have hc : cur.1 = 0 := by simpa [atBoundary] using hb
    have hv : cur.2 ≠ "EOF" := by
      intro hv
      apply hne
      have : cur = ((0 : Int), "EOF") := Prod.ext hc hv
      rw [this]
      exact List.mem_cons_self _ _
    have ih1 := ih (atBoundary_afterFields src)
      (fun hm => hne (List.mem_cons_of_mem _ (mem_of_mem_afterFields hm)))
    rw [List.cons_append, readAll_step cur (src ++ x) hv, readAll_step cur src hv,
      fields_append_boundary src x hx, afterFields_append_boundary src x hx, ih1]
    simp [List.append_assoc]


theorem assertFailures_Q_ASSERT (c : Prop) [Decidable c] (expr : String) (h : c) :
    assertFailures (Q_ASSERT (decide c) expr) = [] := by
  simp [Q_ASSERT, h, assertFailures]

theorem whileReadNoZero_assertFailures {σ : Type} (body : σ → Pair → σ × List Output)
    (hbody : ∀ s p, p.1 ≠ 0 → assertFailures (body s p).2 = []) (src : List Pair) :
    ∀ s : σ, assertFailures (whileReadNoZero body s src).2.1 = [] := by
  induction src with
  | nil => intro s; simp [whileReadNoZero, assertFailures]
  | cons p t ih =>
    intro s
    by_cases hp : p.1 = 0
    · simp [whileReadNoZero, hp, assertFailures]
    · simp only [whileReadNoZero, hp, if_false, assertFailures_append, hbody s p hp, ih,
        List.append_nil]

theorem assertFailures_field_loops :
    (∀ s p, p.1 ≠ 0 → assertFailures (sectionField s p).2 = []) ∧
    (∀ s p, p.1 ≠ 0 → assertFailures (blockField s p).2 = []) ∧
    (∀ s p, p.1 ≠ 0 → assertFailures (insertField s p).2 = []) ∧
    (∀ s p, p.1 ≠ 0 → assertFailures (textField s p).2 = []) ∧
    (∀ s p, p.1 ≠ 0 → assertFailures (lineField s p).2 = []) ∧
    (∀ s p, p.1 ≠ 0 → assertFailures (pointField s p).2 = []) ∧
    (∀ s p, p.1 ≠ 0 → assertFailures (polylineField s p).2 = []) ∧
    (∀ s p, p.1 ≠ 0 → assertFailures (vertexField s p).2 = []) := by
  refine ⟨?_, ?_, ?_, ?_, ?_, ?_, ?_, ?_⟩
  · intro s p _
    unfold sectionField
    split
    · rename_i h; simp [Q_ASSERT, h, assertFailures]
    · rfl
  · intro s p _
    unfold blockField
    repeat' split
    all_goals rfl
  · intro s p _
    unfold insertField
    repeat' split
    all_goals rfl
  · intro s p _
    unfold textField
    repeat' split
    all_goals rfl
  · intro s p hp
    unfold lineField
    have ha : Q_ASSERT (decide (p.1 ≠ 0)) "code() != 0" = [] := by simp [Q_ASSERT, hp]
    simp only [ha]
    repeat' split
    all_goals rfl
  · intro s p _
    unfold pointField
    repeat' split
    all_goals rfl
  · intro s p _
    unfold polylineField
    repeat' split
    all_goals rfl
  · intro s p _
    unfold vertexField
    repeat' split
    all_goals rfl

/-- No assertion of a reader fails when the dispatcher calls it on a code-0
pair. -/
theorem assertFailures_recordOut (cur : Pair) (body : List Pair) (hc : cur.1 = 0) :
    assertFailures (recordOut cur body) = [] := by
  obtain ⟨hS, hB, hI, hT, hL, hP, hPL, hV⟩ := assertFailures_field_loops
  have h0 : assertFailures (Q_ASSERT (decide (cur.1 = 0)) "code() == 0") = [] :=
    assertFailures_Q_ASSERT _ _ hc
  unfold recordOut
  refine readAllBody_cases
    (fun o => assertFailures (match o with | some r => r.out | none => []) = [])
    cur body ?_ ?_ ?_ ?_ ?_ ?_ ?_ ?_ ?_ ?_ ?_ ?_ ?_
  · intro _; rfl
  · intro h
    simp only [readSECTION, assertFailures_append, h0, assertFailures_Q_ASSERT _ _ h,
      whileReadNoZero_assertFailures _ hS, List.nil_append]
    rfl
  · intro h
    simp only [readENDSEC, assertFailures_append, h0, assertFailures_Q_ASSERT _ _ h,
      List.nil_append]
    rfl
  · intro h
    simp only [readBLOCK, assertFailures_append, h0, assertFailures_Q_ASSERT _ _ h,
      whileReadNoZero_assertFailures _ hB, List.nil_append]
    rfl
  · intro _; rfl
  · intro _
    simp only [readINSERT, assertFailures_append,
      whileReadNoZero_assertFailures _ hI, List.nil_append]
    rfl
  · intro h
    simp only [readTEXT, assertFailures_append, h0, assertFailures_Q_ASSERT _ _ h,
      whileReadNoZero_assertFailures _ hT, List.nil_append]
    rfl
  · intro h
    simp only [readLINE, assertFailures_append, h0, assertFailures_Q_ASSERT _ _ h,
      whileReadNoZero_assertFailures _ hL, List.nil_append]
    rfl
  · intro h
    simp only [readPOINT, assertFailures_append, h0, assertFailures_Q_ASSERT _ _ h,
      whileReadNoZero_assertFailures _ hP, List.nil_append]
    rfl
  · intro h
    simp only [readPOLYLINE, assertFailures_append, h0, assertFailures_Q_ASSERT _ _ h,
      whileReadNoZero_assertFailures _ hPL, List.nil_append]
    rfl
  · intro h
    simp only [readVERTEX, assertFailures_append, h0, assertFailures_Q_ASSERT _ _ h,
      whileReadNoZero_assertFailures _ hV, List.nil_append]
    rfl
  · intro h
    simp only [readSEQEND, assertFailures_append, h0, assertFailures_Q_ASSERT _ _ h,
      List.nil_append]
    rfl
  · intro _; rfl

/-- On a stream that is empty or begins with a code-0 pair no assertion fails. -/
theorem assertFailures_readAll (src : List Pair) :
    atBoundary src = true → assertFailures (readAll src).out = [] := by
  induction src using stream_induction with
  | hnil => intro _; simp [readAll_nil, assertFailures]
  | hcons cur src ih =>
    intro hb
    have hc : cur.1 = 0 := by simpa [atBoundary] using hb
    by_cases hv : cur.2 = "EOF"
    · have : cur = (cur.1, "EOF") := Prod.ext rfl hv
      rw [this, readAll_EOF]
      exact assertFailures_Q_ASSERT _ _ hc
    · rw [readAll_step cur src hv]
      simp only [assertFailures_append, assertFailures_Q_ASSERT _ _ hc,
        assertFailures_recordOut cur _ hc, ih (atBoundary_afterFields src), List.append_nil]



theorem readAllBody_unknown (cur : Pair) (src : List Pair)
    (h : cur.2 ∉ ["EOF", "SECTION", "ENDSEC", "BLOCK", "ENDBLK", "INSERT", "TEXT", "LINE",
      "POINT", "POLYLINE", "VERTEX", "SEQEND"]) :
    readAllBody cur src = some { out := [Output.debug (Diag.unknown cur.2)], rest := skip src } := by
  refine readAllBody_cases
    (fun o => o = some { out := [Output.debug (Diag.unknown cur.2)], rest := skip src })
    cur src ?_ ?_ ?_ ?_ ?_ ?_ ?_ ?_ ?_ ?_ ?_ ?_ ?_
  all_goals first
    | (intro _; rfl)
    | (intro e; exfalso; apply h; rw [e]; decide)

theorem readAll_rest_of_no_EOF (pre : List Pair) (hpre : atBoundary pre = true)
    (hno : ((0 : Int), "EOF") ∉ pre) : (readAll pre).rest = [] := by
  have h := readAll_append pre [] rfl hpre hno
  rw [List.append_nil] at h
  have h2 := congrArg Run.rest h
  simpa [readAll_nil] using h2


/-! ## Closed forms of the record readers -/

theorem runFields_nil {σ : Type} (f : σ → Pair → σ × List Output) (s : σ) :
    runFields f s [] = s := rfl

theorem runFields_cons {σ : Type} (f : σ → Pair → σ × List Output) (s : σ) (p : Pair)
    (body : List Pair) : runFields f s (p :: body) = runFields f (f s p).1 body := rfl

theorem runFields_append {σ : Type} (f : σ → Pair → σ × List Output) (s : σ)
    (xs ys : List Pair) : runFields f s (xs ++ ys) = runFields f (runFields f s xs) ys := by
  simp [runFields, List.foldl_append]

theorem strAttr_cons (c : Int) (p : Pair) (body : List Pair) (d : String) :
    strAttr c (p :: body) d = strAttr c body (if p.1 = c then p.2 else d) := by
  unfold strAttr
  rw [lastValue]
  cases lastValue c body <;> by_cases h : p.1 = c <;> simp [h]

theorem numAttr_cons (c : Int) (p : Pair) (body : List Pair) (d : ℚ) :
    numAttr c (p :: body) d = numAttr c body (if p.1 = c then toDouble p.2 else d) := by
  unfold numAttr
  rw [lastValue]
  cases lastValue c body <;> by_cases h : p.1 = c <;> simp [h]

theorem intAttr_cons (c : Int) (p : Pair) (body : List Pair) (d : Int) :
    intAttr c (p :: body) d = intAttr c body (if p.1 = c then toInt p.2 else d) := by
  unfold intAttr
  rw [lastValue]
  cases lastValue c body <;> by_cases h : p.1 = c <;> simp [h]

theorem runFields_lineField (body : List Pair) : ∀ s : DxfLine,
    runFields lineField s body =
      { layer := strAttr 8 body s.layer, x1 := numAttr 10 body s.x1, y1 := numAttr 20 body s.y1,
        z1 := numAttr 30 body s.z1, x2 := numAttr 11 body s.x2, y2 := numAttr 21 body s.y2,
        z2 := numAttr 31 body s.z2 } := by
  induction body with
  | nil => intro s; rfl
  | cons p t ih =>
    intro s
    rw [runFields_cons, ih]
    simp only [strAttr_cons, numAttr_cons, lineField]
    split_ifs <;> simp_all

theorem runFields_sectionField (body : List Pair) : ∀ s : String,
    runFields sectionField s body = strAttr 2 body s := by
  induction body with
  | nil => intro s; rfl
  | cons p t ih =>
    intro s
    rw [runFields_cons, ih]
    simp only [strAttr_cons, sectionField]
    split_ifs <;> simp_all

theorem runFields_blockField (body : List Pair) : ∀ s : DxfBlock,
    runFields blockField s body =
      { layer := strAttr 8 body s.layer, name := strAttr 2 body s.name,
        flags := intAttr 70 body s.flags, x := numAttr 10 body s.x, y := numAttr 20 body s.y,
        z := numAttr 30 body s.z } := by
  induction body with
  | nil => intro s; rfl
  | cons p t ih =>
    intro s
    rw [runFields_cons, ih]
    simp only [strAttr_cons, numAttr_cons, intAttr_cons, blockField]
    split_ifs <;> simp_all

theorem runFields_insertField (body : List Pair) : ∀ s : DxfInsert,
    runFields insertField s body =
      { block := strAttr 2 body s.block, layer := strAttr 8 body s.layer,
        x := numAttr 10 body s.x, y := numAttr 20 body s.y, z := numAttr 30 body s.z } := by
  induction body with
  | nil => intro s; rfl
  | cons p t ih =>
    intro s
    rw [runFields_cons, ih]
    simp only [strAttr_cons, numAttr_cons, insertField]
    split_ifs <;> simp_all

theorem runFields_textField (body : List Pair) : ∀ s : DxfText,
    runFields textField s body =
      { text := strAttr 1 body s.text, layer := strAttr 8 body s.layer,
        x := numAttr 10 body s.x, y := numAttr 20 body s.y, z := numAttr 30 body s.z,
        size := numAttr 40 body s.size, rotation := numAttr 50 body s.rotation } := by
  induction body with
  | nil => intro s; rfl
  | cons p t ih =>
    intro s
    rw [runFields_cons, ih]
    simp only [strAttr_cons, numAttr_cons, textField]
    split_ifs <;> simp_all

theorem runFields_pointField (body : List Pair) : ∀ s : DxfPoint,
    runFields pointField s body =
      { layer := strAttr 8 body s.layer, x := numAttr 10 body s.x, y := numAttr 20 body s.y,
        z := numAttr 30 body s.z } := by
  induction body with
  | nil => intro s; rfl
  | cons p t ih =>
    intro s
    rw [runFields_cons, ih]
    simp only [strAttr_cons, numAttr_cons, pointField]
    split_ifs <;> simp_all

theorem runFields_polylineField (body : List Pair) : ∀ s : DxfPolyline,
    runFields polylineField s body =
      { layer := strAttr 8 body s.layer, flags := intAttr 70 body s.flags } := by
  induction body with
  | nil => intro s; rfl
  | cons p t ih =>
    intro s
    rw [runFields_cons, ih]
    simp only [strAttr_cons, intAttr_cons, polylineField]
    split_ifs <;> simp_all

theorem runFields_vertexField (body : List Pair) : ∀ s : DxfVertex,
    runFields vertexField s body =
      { layer := strAttr 8 body s.layer, x := numAttr 10 body s.x, y := numAttr 20 body s.y,
        flags := intAttr 70 body s.flags } := by
  induction body with
  | nil => intro s; rfl
  | cons p t ih =>
    intro s
    rw [runFields_cons, ih]
    simp only [strAttr_cons, numAttr_cons, intAttr_cons, vertexField]
    split_ifs <;> simp_all

theorem whileReadNoZero_runFields {σ : Type} (body : σ → Pair → σ × List Output) (s : σ)
    (src : List Pair) : (whileReadNoZero body s src).1 = runFields body s (fields src) :=
  whileReadNoZero_state body src s

theorem whileReadNoZero_events {σ : Type} (body : σ → Pair → σ × List Output)
    (hbody : ∀ s p, events (body s p).2 = []) (src : List Pair) :
    ∀ s : σ, events (whileReadNoZero body s src).2.1 = [] := by
  induction src with
  | nil => intro s; rfl
  | cons p t ih =>
    intro s
    by_cases hp : p.1 = 0
    · simp [whileReadNoZero, hp, events]
    · simp only [whileReadNoZero, hp, if_false, events_append, hbody s p, ih, List.append_nil]

theorem events_field_loops :
    (∀ s p, events (sectionField s p).2 = []) ∧
    (∀ s p, events (blockField s p).2 = []) ∧
    (∀ s p, events (insertField s p).2 = []) ∧
    (∀ s p, events (textField s p).2 = []) ∧
    (∀ s p, events (lineField s p).2 = []) ∧
    (∀ s p, events (pointField s p).2 = []) ∧
    (∀ s p, events (polylineField s p).2 = []) ∧
    (∀ s p, events (vertexField s p).2 = []) := by
  refine ⟨?_, ?_, ?_, ?_, ?_, ?_, ?_, ?_⟩
  · intro s p
    unfold sectionField
    split
    · exact events_Q_ASSERT _ _
    · rfl
  · intro s p
    unfold blockField
    repeat' split
    all_goals rfl
  · intro s p
    unfold insertField
    repeat' split
    all_goals rfl
  · intro s p
    unfold textField
    repeat' split
    all_goals rfl
  · intro s p
    unfold lineField
    repeat' split
    all_goals first
      | exact events_Q_ASSERT _ _
      | (simp only [events_append, events_Q_ASSERT]; rfl)
  · intro s p
    unfold pointField
    repeat' split
    all_goals rfl
  · intro s p
    unfold polylineField
    repeat' split
    all_goals rfl
  · intro s p
    unfold vertexField
    repeat' split
    all_goals rfl

/-- What each reader calls on the sink: one event, built from the local state
of its field loop after the body of the record (the end markers carry none). -/
theorem events_readers (cur : Pair) (src : List Pair) :
    events (readSECTION cur src).out = [Event.addSECTION (runFields sectionField "" (fields src))] ∧
    events (readENDSEC cur src).out = [Event.addENDSEC] ∧
    events (readBLOCK cur src).out = [Event.addBLOCK (runFields blockField {} (fields src))] ∧
    events (readENDBLK cur src).out = [Event.addENDBLK] ∧
    events (readINSERT cur src).out
      = [Event.addENTITY (DxfEntity.insert (runFields insertField {} (fields src)))] ∧
    events (readTEXT cur src).out
      = [Event.addENTITY (DxfEntity.text (runFields textField {} (fields src)))] ∧
    events (readLINE cur src).out
      = [Event.addENTITY (DxfEntity.line (runFields lineField {} (fields src)))] ∧
    events (readPOINT cur src).out
      = [Event.addENTITY (DxfEntity.point (runFields pointField {} (fields src)))] ∧
    events (readPOLYLINE cur src).out
      = [Event.addENTITY (DxfEntity.polyline (runFields polylineField {} (fields src)))] ∧
    events (readVERTEX cur src).out
      = [Event.addVERTEX (runFields vertexField {} (fields src))] ∧
    events (readSEQEND cur src).out = [Event.addSEQEND] := by
  obtain ⟨hS, hB, hI, hT, hL, hP, hPL, hV⟩ := events_field_loops
  refine ⟨?_, ?_, ?_, ?_, ?_, ?_, ?_, ?_, ?_, ?_, ?_⟩
  · simp only [readSECTION, events_append, events_Q_ASSERT, whileReadNoZero_events _ hS,
      whileReadNoZero_runFields, List.nil_append]
    rfl
  · simp only [readENDSEC, events_append, events_Q_ASSERT, List.nil_append]
    rfl
  · simp only [readBLOCK, events_append, events_Q_ASSERT, whileReadNoZero_events _ hB,
      whileReadNoZero_runFields, List.nil_append]
    rfl
  · rfl
  · simp only [readINSERT, events_append, events_Q_ASSERT, whileReadNoZero_events _ hI,
      whileReadNoZero_runFields, List.nil_append]
    rfl
  · simp only [readTEXT, events_append, events_Q_ASSERT, whileReadNoZero_events _ hT,
      whileReadNoZero_runFields, List.nil_append]
    rfl
  · simp only [readLINE, events_append, events_Q_ASSERT, whileReadNoZero_events _ hL,
      whileReadNoZero_runFields, List.nil_append]
    rfl
  · simp only [readPOINT, events_append, events_Q_ASSERT, whileReadNoZero_events _ hP,
      whileReadNoZero_runFields, List.nil_append]
    rfl
  · simp only [readPOLYLINE, events_append, events_Q_ASSERT, whileReadNoZero_events _ hPL,
      whileReadNoZero_runFields, List.nil_append]
    rfl
  · simp only [readVERTEX, events_append, events_Q_ASSERT, whileReadNoZero_events _ hV,
      whileReadNoZero_runFields, List.nil_append]
    rfl
  · simp only [readSEQEND, events_append, events_Q_ASSERT, List.nil_append]
    rfl


theorem events_recordOut (cur : Pair) (body : List Pair) :
    events (recordOut cur body) = recordEvents cur.2 (fields body) := by
  obtain ⟨e1, e2, e3, e4, e5, e6, e7, e8, e9, e10, e11⟩ := events_readers cur body
  unfold recordOut
  refine readAllBody_cases
    (fun o => events (match o with | some r => r.out | none => [])
      = recordEvents cur.2 (fields body))
    cur body ?_ ?_ ?_ ?_ ?_ ?_ ?_ ?_ ?_ ?_ ?_ ?_ ?_
  · intro h; rw [h]; rfl
  · intro h; rw [h]; exact e1
  · intro h; rw [h]; exact e2
  · intro h; rw [h]; exact e3
  · intro h; rw [h]; exact e4
  · intro h; rw [h]; exact e5
  · intro h; rw [h]; exact e6
  · intro h; rw [h]; exact e7
  · intro h; rw [h]; exact e8
  · intro h; rw [h]; exact e9
  · intro h; rw [h]; exact e10
  · intro h; rw [h]; exact e11
  · intro h
    have hn : ∀ k ∈ ["EOF", "SECTION", "ENDSEC", "BLOCK", "ENDBLK", "INSERT", "TEXT", "LINE",
        "POINT", "POLYLINE", "VERTEX", "SEQEND"], cur.2 ≠ k := fun k hk e => h (e ▸ hk)
    unfold recordEvents
    rw [if_neg (hn _ (by decide)), if_neg (hn _ (by decide)), if_neg (hn _ (by decide)),
      if_neg (hn _ (by decide)), if_neg (hn _ (by decide)), if_neg (hn _ (by decide)),
      if_neg (hn _ (by decide)), if_neg (hn _ (by decide)), if_neg (hn _ (by decide)),
      if_neg (hn _ (by decide)), if_neg (hn _ (by decide)), if_neg (hn _ (by decide))]
    rfl

/-- The calls on the sink, record by record. -/
theorem events_readAll_cons (cur : Pair) (src : List Pair) (h : cur.2 ≠ "EOF") :
    events (readAll (cur :: src)).out =
      recordEvents cur.2 (fields src) ++ events (readAll (afterFields src)).out := by
  rw [readAll_step cur src h]
  simp only [events_append, events_Q_ASSERT, List.nil_append, events_recordOut]
  rw [show fields (fields src) = fields src from ?_]
  have := fields_append (fields src) [] (fields_isField src) rfl
  rwa [List.append_nil] at this

theorem events_readAll_record (c : Int) (kw : String) (body rest : List Pair) (h : kw ≠ "EOF")
    (hbody : ∀ p ∈ body, p.1 ≠ 0) (hrest : atBoundary rest = true) :
    events (readAll ((c, kw) :: (body ++ rest))).out =
      recordEvents kw body ++ events (readAll rest).out := by
  rw [events_readAll_cons _ _ h, fields_append body rest hbody hrest,
    afterFields_append body rest hbody hrest]

theorem runFields_skip {σ : Type} (f : σ → Pair → σ × List Output) (u : Pair)
    (hu : ∀ s, (f s u).1 = s) (s : σ) (xs ys : List Pair) :
    runFields f s (xs ++ u :: ys) = runFields f s (xs ++ ys) := by
  rw [runFields_append, runFields_append, runFields_cons, hu]

theorem field_unrecognized (u : Pair) :
    (u.1 ∉ recognizedCodes "SECTION" → ∀ s, (sectionField s u).1 = s) ∧
    (u.1 ∉ recognizedCodes "BLOCK" → ∀ s, (blockField s u).1 = s) ∧
    (u.1 ∉ recognizedCodes "INSERT" → ∀ s, (insertField s u).1 = s) ∧
    (u.1 ∉ recognizedCodes "TEXT" → ∀ s, (textField s u).1 = s) ∧
    (u.1 ∉ recognizedCodes "LINE" → ∀ s, (lineField s u).1 = s) ∧
    (u.1 ∉ recognizedCodes "POINT" → ∀ s, (pointField s u).1 = s) ∧
    (u.1 ∉ recognizedCodes "POLYLINE" → ∀ s, (polylineField s u).1 = s) ∧
    (u.1 ∉ recognizedCodes "VERTEX" → ∀ s, (vertexField s u).1 = s) := by
  have e1 : recognizedCodes "SECTION" = [2] := by decide
  have e2 : recognizedCodes "BLOCK" = [8, 2, 70, 10, 20, 30] := by decide
  have e3 : recognizedCodes "INSERT" = [2, 8, 10, 20, 30] := by decide
  have e4 : recognizedCodes "TEXT" = [1, 7, 8, 10, 20, 30, 40, 50] := by decide
  have e5 : recognizedCodes "LINE" = [8, 10, 20, 30, 11, 21, 31] := by decide
  have e6 : recognizedCodes "POINT" = [8, 10, 20, 30, 38, 39, 50] := by decide
  have e7 : recognizedCodes "POLYLINE" = [66, 8, 70] := by decide
  have e8 : recognizedCodes "VERTEX" = [8, 10, 20, 70] := by decide
  rw [e1, e2, e3, e4, e5, e6, e7, e8]
  refine ⟨?_, ?_, ?_, ?_, ?_, ?_, ?_, ?_⟩
  · intro h s; simp at h; simp [sectionField, h]
  · intro h s; simp at h; simp [blockField, h]
  · intro h s; simp at h; simp [insertField, h]
  · intro h s; simp at h; simp [textField, h]
  · intro h s; simp at h; simp [lineField, h]
  · intro h s; simp at h; simp [pointField, h]
  · intro h s; simp at h; simp [polylineField, h]
  · intro h s; simp at h; simp [vertexField, h]

theorem recordEvents_known :
    (∀ b, recordEvents "SECTION" b = [Event.addSECTION (runFields sectionField "" b)]) ∧
    (∀ b, recordEvents "ENDSEC" b = [Event.addENDSEC]) ∧
    (∀ b, recordEvents "BLOCK" b = [Event.addBLOCK (runFields blockField {} b)]) ∧
    (∀ b, recordEvents "ENDBLK" b = [Event.addENDBLK]) ∧
    (∀ b, recordEvents "INSERT" b
      = [Event.addENTITY (DxfEntity.insert (runFields insertField {} b))]) ∧
    (∀ b, recordEvents "TEXT" b = [Event.addENTITY (DxfEntity.text (runFields textField {} b))]) ∧
    (∀ b, recordEvents "LINE" b = [Event.addENTITY (DxfEntity.line (runFields lineField {} b))]) ∧
    (∀ b, recordEvents "POINT" b
      = [Event.addENTITY (DxfEntity.point (runFields pointField {} b))]) ∧
    (∀ b, recordEvents "POLYLINE" b
      = [Event.addENTITY (DxfEntity.polyline (runFields polylineField {} b))]) ∧
    (∀ b, recordEvents "VERTEX" b = [Event.addVERTEX (runFields vertexField {} b)]) ∧
    (∀ b, recordEvents "SEQEND" b = [Event.addSEQEND]) :=
  ⟨fun _ => rfl, fun _ => rfl, fun _ => rfl, fun _ => rfl, fun _ => rfl, fun _ => rfl,
    fun _ => rfl, fun _ => rfl, fun _ => rfl, fun _ => rfl, fun _ => rfl⟩


/-- A terminal record after a stream without one: the run observes what it
observes on the stream alone and leaves unread everything after the terminal
record. -/
theorem readAll_append_EOF (pre rest : List Pair) (hpre : atBoundary pre = true)
    (hno : ((0 : Int), "EOF") ∉ pre) :
    readAll (pre ++ (0, "EOF") :: rest) = { out := (readAll pre).out, rest := rest } := by
  have h := readAll_append pre (((0 : Int), "EOF") :: rest) rfl hpre hno
  rw [readAll_EOF] at h
  rw [h]
  simp [Q_ASSERT]

theorem atBoundary_records_append (kw : String) (bodies : List (List Pair)) (x : List Pair)
    (hx : atBoundary x = true) : atBoundary (records kw bodies ++ x) = true := by
  cases bodies with
  | nil => simpa [records] using hx
  | cons b t => rfl

theorem events_readAll_last (c : Int) (kw : String) (body : List Pair) (h : kw ≠ "EOF")
    (hbody : ∀ p ∈ body, p.1 ≠ 0) :
    events (readAll ((c, kw) :: body)).out = recordEvents kw body := by
  have := events_readAll_record c kw body [] h hbody rfl
  rw [List.append_nil, readAll_nil] at this
  rw [this]
  exact List.append_nil _

theorem events_readAll_records_VERTEX (vbs : List (List Pair)) (x : List Pair)
    (hx : atBoundary x = true) (hvbs : ∀ vb ∈ vbs, ∀ p ∈ vb, p.1 ≠ 0) :
    events (readAll (records "VERTEX" vbs ++ x)).out =
      vbs.map (fun vb => Event.addVERTEX (runFields vertexField {} vb))
        ++ events (readAll x).out := by
  induction vbs with
  | nil => rfl
  | cons vb t ih =>
    have ht := ih (fun b hb => hvbs b (List.mem_cons_of_mem _ hb))
    have hb := hvbs vb (List.mem_cons_self _ _)
    have e : records "VERTEX" (vb :: t) ++ x = (0, "VERTEX") :: (vb ++ (records "VERTEX" t ++ x)) := by
      simp [records]
    rw [e, events_readAll_record 0 "VERTEX" vb _ (by decide) hb
      (atBoundary_records_append _ t x hx), ht]
    rfl


theorem lastValue_absent (c : Int) (body : List Pair) (h : ∀ p ∈ body, p.1 ≠ c) :
    lastValue c body = none := by
  induction body with
  | nil => rfl
  | cons p t ih =>
    rw [lastValue, ih (fun q hq => h q (List.mem_cons_of_mem _ hq))]
    simp [h p (List.mem_cons_self _ _)]

theorem lastValue_last (c : Int) (xs ys : List Pair) (v : String) (h : ∀ p ∈ ys, p.1 ≠ c) :
    lastValue c (xs ++ (c, v) :: ys) = some v := by
  induction xs with
  | nil =>
    rw [List.nil_append, lastValue, lastValue_absent c ys h]
    simp
  | cons p t ih =>
    rw [List.cons_append, lastValue, ih]

theorem strAttr_absent (c : Int) (body : List Pair) (d : String) (h : ∀ p ∈ body, p.1 ≠ c) :
    strAttr c body d = d := by
  rw [strAttr, lastValue_absent c body h]; rfl

theorem numAttr_absent (c : Int) (body : List Pair) (d : ℚ) (h : ∀ p ∈ body, p.1 ≠ c) :
    numAttr c body d = d := by
  rw [numAttr, lastValue_absent c body h]; rfl

theorem intAttr_absent (c : Int) (body : List Pair) (d : Int) (h : ∀ p ∈ body, p.1 ≠ c) :
    intAttr c body d = d := by
  rw [intAttr, lastValue_absent c body h]; rfl

theorem strAttr_last (c : Int) (body xs ys : List Pair) (v d : String)
    (e : body = xs ++ (c, v) :: ys) (h : ∀ p ∈ ys, p.1 ≠ c) : strAttr c body d = v := by
  rw [strAttr, e, lastValue_last c xs ys v h]; rfl

theorem numAttr_last (c : Int) (body xs ys : List Pair) (v : String) (d : ℚ)
    (e : body = xs ++ (c, v) :: ys) (h : ∀ p ∈ ys, p.1 ≠ c) :
    numAttr c body d = toDouble v := by
  rw [numAttr, e, lastValue_last c xs ys v h]; rfl

theorem intAttr_last (c : Int) (body xs ys : List Pair) (v : String) (d : Int)
    (e : body = xs ++ (c, v) :: ys) (h : ∀ p ∈ ys, p.1 ≠ c) :
    intAttr c body d = toInt v := by
  rw [intAttr, e, lastValue_last c xs ys v h]; rfl

/-- The call each record kind makes on the sink, in closed form: every
attribute is the coerced value of the last pair of the body with the code of
the attribute, and the zero default when the body has no such pair. -/
theorem events_readAll_closed (body rest : List Pair) (hbody : ∀ p ∈ body, p.1 ≠ 0)
    (hrest : atBoundary rest = true) :
    events (readAll ((0, "SECTION") :: body ++ rest)).out
      = Event.addSECTION (strAttr 2 body "") :: events (readAll rest).out ∧
    events (readAll ((0, "BLOCK") :: body ++ rest)).out
      = Event.addBLOCK
          { layer := strAttr 8 body "", name := strAttr 2 body "", flags := intAttr 70 body 0,
            x := numAttr 10 body 0, y := numAttr 20 body 0, z := numAttr 30 body 0 }
        :: events (readAll rest).out ∧
    events (readAll ((0, "INSERT") :: body ++ rest)).out
      = Event.addENTITY (DxfEntity.insert
          { block := strAttr 2 body "", layer := strAttr 8 body "", x := numAttr 10 body 0,
            y := numAttr 20 body 0, z := numAttr 30 body 0 })
        :: events (readAll rest).out ∧
    events (readAll ((0, "TEXT") :: body ++ rest)).out
      = Event.addENTITY (DxfEntity.text
          { text := strAttr 1 body "", layer := strAttr 8 body "", x := numAttr 10 body 0,
            y := numAttr 20 body 0, z := numAttr 30 body 0, size := numAttr 40 body 0,
            rotation := numAttr 50 body 0 })
        :: events (readAll rest).out ∧
    events (readAll ((0, "LINE") :: body ++ rest)).out
      = Event.addENTITY (DxfEntity.line
          { layer := strAttr 8 body "", x1 := numAttr 10 body 0, y1 := numAttr 20 body 0,
            z1 := numAttr 30 body 0, x2 := numAttr 11 body 0, y2 := numAttr 21 body 0,
            z2 := numAttr 31 body 0 })
        :: events (readAll rest).out ∧
    events (readAll ((0, "POINT") :: body ++ rest)).out
      = Event.addENTITY (DxfEntity.point
          { layer := strAttr 8 body "", x := numAttr 10 body 0, y := numAttr 20 body 0,
            z := numAttr 30 body 0 })
        :: events (readAll rest).out ∧
    events (readAll ((0, "POLYLINE") :: body ++ rest)).out
      = Event.addENTITY (DxfEntity.polyline
          { layer := strAttr 8 body "", flags := intAttr 70 body 0 })
        :: events (readAll rest).out ∧
    events (readAll ((0, "VERTEX") :: body ++ rest)).out
      = Event.addVERTEX
          { layer := strAttr 8 body "", x := numAttr 10 body 0, y := numAttr 20 body 0,
            flags := intAttr 70 body 0 }
        :: events (readAll rest).out := by
  obtain ⟨r1, _, r3, _, r5, r6, r7, r8, r9, r10, _⟩ := recordEvents_known
  have g : ∀ kw : String, kw ≠ "EOF" → events (readAll ((0, kw) :: body ++ rest)).out
      = recordEvents kw body ++ events (readAll rest).out :=
    fun kw hk => events_readAll_record 0 kw body rest hk hbody hrest
  refine ⟨?_, ?_, ?_, ?_, ?_, ?_, ?_, ?_⟩
  · rw [g _ (by decide), r1, runFields_sectionField]; rfl
  · rw [g _ (by decide), r3, runFields_blockField]; rfl
  · rw [g _ (by decide), r5, runFields_insertField]; rfl
  · rw [g _ (by decide), r6, runFields_textField]; rfl
  · rw [g _ (by decide), r7, runFields_lineField]; rfl
  · rw [g _ (by decide), r8, runFields_pointField]; rfl
  · rw [g _ (by decide), r9, runFields_polylineField]; rfl
  · rw [g _ (by decide), r10, runFields_vertexField]; rfl

/-- The call each record kind that reads fields makes on the sink: one call,
with the local state of the field loop after all the pairs of the body. -/
theorem events_readAll_kinds (body rest : List Pair) (hbody : ∀ p ∈ body, p.1 ≠ 0)
    (hrest : atBoundary rest = true) :
    events (readAll ((0, "SECTION") :: body ++ rest)).out
      = Event.addSECTION (runFields sectionField "" body) :: events (readAll rest).out ∧
    events (readAll ((0, "BLOCK") :: body ++ rest)).out
      = Event.addBLOCK (runFields blockField {} body) :: events (readAll rest).out ∧
    events (readAll ((0, "INSERT") :: body ++ rest)).out
      = Event.addENTITY (DxfEntity.insert (runFields insertField {} body))
        :: events (readAll rest).out ∧
    events (readAll ((0, "TEXT") :: body ++ rest)).out
      = Event.addENTITY (DxfEntity.text (runFields textField {} body))
        :: events (readAll rest).out ∧
    events (readAll ((0, "LINE") :: body ++ rest)).out
      = Event.addENTITY (DxfEntity.line (runFields lineField {} body))
        :: events (readAll rest).out ∧
    events (readAll ((0, "POINT") :: body ++ rest)).out
      = Event.addENTITY (DxfEntity.point (runFields pointField {} body))
        :: events (readAll rest).out ∧
    events (readAll ((0, "POLYLINE") :: body ++ rest)).out
      = Event.addENTITY (DxfEntity.polyline (runFields polylineField {} body))
        :: events (readAll rest).out ∧
    events (readAll ((0, "VERTEX") :: body ++ rest)).out
      = Event.addVERTEX (runFields vertexField {} body) :: events (readAll rest).out := by
  obtain ⟨r1, _, r3, _, r5, r6, r7, r8, r9, r10, _⟩ := recordEvents_known
  have g : ∀ kw : String, kw ≠ "EOF" → events (readAll ((0, kw) :: body ++ rest)).out
      = recordEvents kw body ++ events (readAll rest).out :=
    fun kw hk => events_readAll_record 0 kw body rest hk hbody hrest
  refine ⟨?_, ?_, ?_, ?_, ?_, ?_, ?_, ?_⟩
  · rw [g _ (by decide), r1]; rfl
  · rw [g _ (by decide), r3]; rfl
  · rw [g _ (by decide), r5]; rfl
  · rw [g _ (by decide), r6]; rfl
  · rw [g _ (by decide), r7]; rfl
  · rw [g _ (by decide), r8]; rfl
  · rw [g _ (by decide), r9]; rfl
  · rw [g _ (by decide), r10]; rfl

theorem keyword_cases (motive : String → Prop)
    (hknown : ∀ kw ∈ ["EOF", "SECTION", "ENDSEC", "BLOCK", "ENDBLK", "INSERT", "TEXT", "LINE",
      "POINT", "POLYLINE", "VERTEX", "SEQEND"], motive kw)
    (hunknown : ∀ kw, kw ∉ ["EOF", "SECTION", "ENDSEC", "BLOCK", "ENDBLK", "INSERT", "TEXT",
      "LINE", "POINT", "POLYLINE", "VERTEX", "SEQEND"] → motive kw) :
    ∀ kw, motive kw := by
  intro kw
  by_cases h : kw ∈ ["EOF", "SECTION", "ENDSEC", "BLOCK", "ENDBLK", "INSERT", "TEXT", "LINE",
      "POINT", "POLYLINE", "VERTEX", "SEQEND"]
  · exact hknown kw h
  · exact hunknown kw h

theorem recordEvents_unknown (kw : String) (body : List Pair)
    (h : kw ∉ ["EOF", "SECTION", "ENDSEC", "BLOCK", "ENDBLK", "INSERT", "TEXT", "LINE", "POINT",
      "POLYLINE", "VERTEX", "SEQEND"]) : recordEvents kw body = [] := by
  have hn : ∀ k ∈ ["EOF", "SECTION", "ENDSEC", "BLOCK", "ENDBLK", "INSERT", "TEXT", "LINE",
      "POINT", "POLYLINE", "VERTEX", "SEQEND"], kw ≠ k := fun k hk e => h (e ▸ hk)
  unfold recordEvents
  rw [if_neg (hn _ (by decide)), if_neg (hn _ (by decide)), if_neg (hn _ (by decide)),
    if_neg (hn _ (by decide)), if_neg (hn _ (by decide)), if_neg (hn _ (by decide)),
    if_neg (hn _ (by decide)), if_neg (hn _ (by decide)), if_neg (hn _ (by decide)),
    if_neg (hn _ (by decide)), if_neg (hn _ (by decide)), if_neg (hn _ (by decide))]

theorem keywordMark_unknown (kw : String)
    (h : kw ∉ ["EOF", "SECTION", "ENDSEC", "BLOCK", "ENDBLK", "INSERT", "TEXT", "LINE", "POINT",
      "POLYLINE", "VERTEX", "SEQEND"]) : keywordMark kw = none := by
  have hn : ∀ k ∈ ["EOF", "SECTION", "ENDSEC", "BLOCK", "ENDBLK", "INSERT", "TEXT", "LINE",
      "POINT", "POLYLINE", "VERTEX", "SEQEND"], kw ≠ k := fun k hk e => h (e ▸ hk)
  unfold keywordMark
  rw [if_neg (hn _ (by decide)), if_neg (hn _ (by decide)), if_neg (hn _ (by decide)),
    if_neg (hn _ (by decide)), if_neg (hn _ (by decide)), if_neg (hn _ (by decide))]

/-- A record makes a grouping call exactly when its keyword is a grouping
keyword, and then the call of that keyword. -/
theorem marks_recordEvents (body : List Pair) :
    ∀ kw, (recordEvents kw body).filterMap eventMark = (keywordMark kw).toList := by
  refine keyword_cases _ ?_ ?_
  · intro kw hkw
    simp only [List.mem_cons, List.mem_singleton, List.not_mem_nil, or_false] at hkw
    rcases hkw with h | h | h | h | h | h | h | h | h | h | h | h <;> subst h <;> rfl
  · intro kw h
    rw [recordEvents_unknown kw body h, keywordMark_unknown kw h]
    rfl

theorem filter_code0_afterFields (src : List Pair) :
    (afterFields src).filter (fun p => decide (p.1 = 0))
      = src.filter (fun p => decide (p.1 = 0)) := by
  have h : (fields src).filter (fun p => decide (p.1 = 0)) = [] := by
    rw [List.filter_eq_nil_iff]
    intro p hp
    simpa using fields_isField src p hp
  conv_rhs => rw [← fields_append_afterFields src, List.filter_append, h, List.nil_append]

theorem marks_readAll_boundary (src : List Pair) :
    atBoundary src = true →
    (events (readAll src).out).filterMap eventMark =
      (((src.filter (fun p => decide (p.1 = 0))).map Prod.snd).takeWhile
        (fun v => decide (v ≠ "EOF"))).filterMap keywordMark := by
  induction src using stream_induction with
  | hnil => intro _; rw [readAll_nil]; rfl
  | hcons cur src ih =>
    intro hb
    have hc : cur.1 = 0 := by simpa [atBoundary] using hb
    have ih1 := ih (atBoundary_afterFields src)
    rw [filter_code0_afterFields] at ih1
    by_cases hv : cur.2 = "EOF"
    · have e : cur = (cur.1, "EOF") := Prod.ext rfl hv
      rw [e, readAll_EOF]
      simp [hc, events_Q_ASSERT]
    · rw [events_readAll_cons cur src hv, List.filterMap_append, marks_recordEvents, ih1]
      cases hk : keywordMark cur.2 <;> simp [hc, hv, hk, List.filterMap_cons]

/-- The grouping calls a run makes are, one for one and in order, the grouping
records the dispatcher reads. -/
theorem marks_readAll (src : List Pair) :
    (events (readAll src).out).filterMap eventMark
      = (recordKeywords src).filterMap keywordMark := by
  cases src with
  | nil => rw [readAll_nil]; rfl
  | cons cur src =>
    have h := marks_readAll_boundary (afterFields src) (atBoundary_afterFields src)
    rw [filter_code0_afterFields] at h
    by_cases hv : cur.2 = "EOF"
    · have e : cur = (cur.1, "EOF") := Prod.ext rfl hv
      rw [e, readAll_EOF]
      simp [recordKeywords, events_Q_ASSERT]
    · rw [events_readAll_cons cur src hv, List.filterMap_append, marks_recordEvents, h]
      cases hk : keywordMark cur.2 <;> simp [recordKeywords, hv, hk, List.filterMap_cons]


theorem whileReadNoZero_counted {σ : Type} (body : σ → Pair → σ × List Output)
    (src : List Pair) : ∀ (s : σ) (n : Nat),
    whileReadNoZero (counted body) (s, n) src =
      (((whileReadNoZero body s src).1,
          n + (src.length - (whileReadNoZero body s src).2.2.length)),
        (whileReadNoZero body s src).2.1, (whileReadNoZero body s src).2.2) := by
  induction src with
  | nil => intro s n; simp [whileReadNoZero]
  | cons p t ih =>
    intro s n
    by_cases hp : p.1 = 0
    · simp [whileReadNoZero, hp]
    · have hle : (whileReadNoZero body (body s p).1 t).2.2.length ≤ t.length := by
        rw [whileReadNoZero_rest]; exact afterFields_length_le t
      simp only [whileReadNoZero, hp, if_false, counted, ih, List.length_cons]
      congr 2
      omega

theorem readAllBody_rest (cur : Pair) (src : List Pair) (r : Run)
    (h : readAllBody cur src = some r) : r.rest = afterFields src := by
  rw [readAllBody_fields] at h
  cases hb : readAllBody cur (fields src) with
  | none => rw [hb] at h; exact absurd h (by simp)
  | some q =>
    rw [hb] at h
    simp only [Option.map_some', Option.some.injEq] at h
    rw [← h]

theorem readAllWithin_enough (src : List Pair) :
    ∀ fuel, src.length ≤ fuel →
      ∃ k, readAllWithin fuel src = some (readAll src, k) ∧ k ≤ src.length := by
  induction src using stream_induction with
  | hnil =>
    intro fuel _
    refine ⟨0, ?_, Nat.le_refl _⟩
    cases fuel <;> simp [readAllWithin, readAll_nil]
  | hcons cur src ih =>
    intro fuel hf
    cases fuel with
    | zero => simp at hf
    | succ fuel =>
      have hlen := afterFields_length_le src
      simp only [List.length_cons] at hf
      cases hb : readAllBody cur src with
      | none =>
        refine ⟨1, ?_, by simp⟩
        simp only [readAllWithin, hb, readAll_cons]
      | some r =>
        have hr := readAllBody_rest cur src r hb
        obtain ⟨k, hk, hkle⟩ := ih fuel (by omega)
        refine ⟨1 + (src.length - r.rest.length) + k, ?_, ?_⟩
        · simp only [readAllWithin, hb, readAll_cons, hr, hk]
        · rw [hr]
          simp only [List.length_cons]
          omega


theorem lastValue_eq_none_iff (c : Int) (body : List Pair) :
    lastValue c body = none ↔ ∀ p ∈ body, p.1 ≠ c := by
  induction body with
  | nil => simp [lastValue]
  | cons p t ih =>
    rw [lastValue]
    cases h : lastValue c t with
    | some v =>
      constructor
      · intro e
        exact absurd e (by simp)
      · intro hall
        have := ih.2 (fun q hq => hall q (List.mem_cons_of_mem _ hq))
        rw [h] at this
        exact absurd this (by simp)
    | none =>
      have ht := ih.1 h
      by_cases hp : p.1 = c
      · simp [hp]
      · simp only [hp, if_false, true_iff]
        intro q hq
        rcases List.mem_cons.1 hq with e | hq
        · rw [e]; exact hp
        · exact ht q hq

theorem lastValue_filter (c : Int) (body : List Pair) :
    lastValue c (body.filter (fun p => decide (p.1 = c))) = lastValue c body := by
  induction body with
  | nil => rfl
  | cons p t ih =>
    by_cases hp : p.1 = c
    · rw [List.filter_cons_of_pos (by simpa using hp), lastValue, lastValue, ih]
    · rw [List.filter_cons_of_neg (by simpa using hp), ih, lastValue]
      cases lastValue c t <;> simp [hp]

theorem lastValue_eq_some_iff (c : Int) (v : String) (body : List Pair)
    (hnd : (body.map Prod.fst).Nodup) : lastValue c body = some v ↔ (c, v) ∈ body := by
  induction body generalizing v with
  | nil => simp [lastValue]
  | cons p t ih =>
    rw [List.map_cons, List.nodup_cons] at hnd
    obtain ⟨hp, ht⟩ := hnd
    have ih1 := ih v ht
    rw [lastValue]
    cases h : lastValue c t with
    | some w =>
      have hw : (c, w) ∈ t := (ih w ht).1 h
      rw [h] at ih1
      constructor
      · intro e
        have : w = v := Option.some.inj e
        rw [← this]
        exact List.mem_cons_of_mem _ hw
      · intro hm
        rcases List.mem_cons.1 hm with e | hm
        · exfalso
          apply hp
          have : p.1 = c := by rw [← e]
          rw [this]
          exact List.mem_map.2 ⟨(c, w), hw, rfl⟩
        · exact ih1.2 hm
    | none =>
      rw [h] at ih1
      have hno := (lastValue_eq_none_iff c t).1 h
      constructor
      · intro e
        by_cases hpc : p.1 = c
        · rw [if_pos hpc] at e
          have : p.2 = v := Option.some.inj e
          have hpe : p = (c, v) := Prod.ext hpc this
          rw [hpe]
          exact List.mem_cons_self _ _
        · rw [if_neg hpc] at e
          exact absurd e (by simp)
      · intro hm
        rcases List.mem_cons.1 hm with e | hm
        · rw [← e]; simp
        · exact absurd rfl (hno _ hm)

theorem lastValue_perm (c : Int) (b1 b2 : List Pair) (hperm : b1.Perm b2)
    (hnd : (b1.map Prod.fst).Nodup) : lastValue c b1 = lastValue c b2 := by
  have hnd2 : (b2.map Prod.fst).Nodup := (hperm.map Prod.fst).nodup_iff.1 hnd
  cases h : lastValue c b1 with
  | none =>
    have h1 := (lastValue_eq_none_iff c b1).1 h
    exact ((lastValue_eq_none_iff c b2).2 (fun p hp => h1 p (hperm.mem_iff.2 hp))).symm
  | some v =>
    have h1 := (lastValue_eq_some_iff c v b1 hnd).1 h
    exact ((lastValue_eq_some_iff c v b2 hnd2).2 (hperm.mem_iff.1 h1)).symm

/-- Each reader that reads fields makes its call on the sink last, after the
loop has consumed the body, and leaves what follows the body. -/
theorem readers_emit_last (cur : Pair) (src : List Pair) :
    ((readSECTION cur src).out.getLast?
        = some (Output.sink (Event.addSECTION (runFields sectionField "" (fields src)))) ∧
      (readSECTION cur src).rest = afterFields src) ∧
    ((readBLOCK cur src).out.getLast?
        = some (Output.sink (Event.addBLOCK (runFields blockField {} (fields src)))) ∧
      (readBLOCK cur src).rest = afterFields src) ∧
    ((readVERTEX cur src).out.getLast?
        = some (Output.sink (Event.addVERTEX (runFields vertexField {} (fields src)))) ∧
      (readVERTEX cur src).rest = afterFields src) := by
  refine ⟨⟨?_, ?_⟩, ⟨?_, ?_⟩, ⟨?_, ?_⟩⟩
  · simp only [readSECTION, whileReadNoZero_runFields, List.getLast?_append, List.getLast?_singleton]
    rfl
  · simp only [readSECTION, whileReadNoZero_rest]
  · simp only [readBLOCK, whileReadNoZero_runFields, List.getLast?_append, List.getLast?_singleton]
    rfl
  · simp only [readBLOCK, whileReadNoZero_rest]
  · simp only [readVERTEX, whileReadNoZero_runFields, List.getLast?_append, List.getLast?_singleton]
    rfl
  · simp only [readVERTEX, whileReadNoZero_rest]


theorem whileReadNoZero_diags {σ : Type} (body : σ → Pair → σ × List Output)
    (bad : Pair → Bool) (mk : Pair → Diag)
    (hbody : ∀ s p, diags (body s p).2 = if bad p = true then [mk p] else [])
    (src : List Pair) :
    ∀ s : σ, diags (whileReadNoZero body s src).2.1 = ((fields src).filter bad).map mk := by
  induction src with
  | nil => intro s; rfl
  | cons p t ih =>
    intro s
    by_cases hp : p.1 = 0
    · simp [whileReadNoZero, fields, isField, hp, diags]
    · have hf : fields (p :: t) = p :: fields t := by simp [fields, isField, hp]
      simp only [whileReadNoZero, hp, if_false, diags_append, hbody s p, ih, hf]
      by_cases hb : bad p = true
      · simp [hb]
      · simp [hb]

theorem whileReadNoZero_diags_nil {σ : Type} (body : σ → Pair → σ × List Output)
    (hbody : ∀ s p, diags (body s p).2 = []) (src : List Pair) :
    ∀ s : σ, diags (whileReadNoZero body s src).2.1 = [] := by
  induction src with
  | nil => intro s; rfl
  | cons p t ih =>
    intro s
    by_cases hp : p.1 = 0
    · simp [whileReadNoZero, hp, diags]
    · simp only [whileReadNoZero, hp, if_false, diags_append, hbody s p, ih, List.append_nil]

theorem recognizedCodes_known :
    recognizedCodes "SECTION" = [2] ∧
    recognizedCodes "BLOCK" = [8, 2, 70, 10, 20, 30] ∧
    recognizedCodes "INSERT" = [2, 8, 10, 20, 30] ∧
    recognizedCodes "TEXT" = [1, 7, 8, 10, 20, 30, 40, 50] ∧
    recognizedCodes "LINE" = [8, 10, 20, 30, 11, 21, 31] ∧
    recognizedCodes "POINT" = [8, 10, 20, 30, 38, 39, 50] ∧
    recognizedCodes "POLYLINE" = [66, 8, 70] ∧
    recognizedCodes "VERTEX" = [8, 10, 20, 70] := by
  decide

/-- What the loop body of each reader writes with `qDebug()` on one pair:
nothing in `readSECTION`, `readBLOCK` and `readVERTEX`; in the other readers one
line when the code of the pair is none of those the reader compares with. -/
theorem diags_field_loops :
    (∀ s p, diags (sectionField s p).2 = []) ∧
    (∀ s p, diags (blockField s p).2 = []) ∧
    (∀ s p, diags (insertField s p).2 = if decide (p.1 ∉ recognizedCodes "INSERT") = true then
      [Diag.unhandled p.1 p.2 "readINSERT"] else []) ∧
    (∀ s p, diags (textField s p).2 = if decide (p.1 ∉ recognizedCodes "TEXT") = true then
      [Diag.unhandled p.1 p.2 "readTEXT"] else []) ∧
    (∀ s p, diags (lineField s p).2 = if decide (p.1 ∉ recognizedCodes "LINE") = true then
      [Diag.unhandled p.1 p.2 "readLINE"] else []) ∧
    (∀ s p, diags (pointField s p).2 = if decide (p.1 ∉ recognizedCodes "POINT") = true then
      [Diag.unhandled p.1 p.2 "readPOINT"] else []) ∧
    (∀ s p, diags (polylineField s p).2
      = if decide (p.1 ∉ recognizedCodes "POLYLINE") = true then
        [Diag.unhandled p.1 p.2 "readPOLYLINE"] else []) ∧
    (∀ s p, diags (vertexField s p).2 = []) := by
  rw [recognizedCodes_known.2.2.1, recognizedCodes_known.2.2.2.1,
    recognizedCodes_known.2.2.2.2.1, recognizedCodes_known.2.2.2.2.2.1,
    recognizedCodes_known.2.2.2.2.2.2.1]
  refine ⟨?_, ?_, ?_, ?_, ?_, ?_, ?_, ?_⟩
  · intro s p
    unfold sectionField
    split
    · exact diags_Q_ASSERT _ _
    · rfl
  · intro s p
    unfold blockField
    repeat' split
    all_goals rfl
  · intro s p
    unfold insertField
    split_ifs <;> simp_all [diags]
  · intro s p
    unfold textField
    split_ifs <;> simp_all [diags]
  · intro s p
    unfold lineField
    split_ifs <;> simp_all [diags, diags_append, diags_Q_ASSERT, Q_ASSERT]
  · intro s p
    unfold pointField
    split_ifs <;> simp_all [diags]
  · intro s p
    unfold polylineField
    split_ifs <;> simp_all [diags]
  · intro s p
    unfold vertexField
    repeat' split
    all_goals rfl

/-- The lines each record reader writes with `qDebug()`. -/
theorem diags_readers (cur : Pair) (src : List Pair) :
    diags (readSECTION cur src).out = [] ∧
    diags (readBLOCK cur src).out = [] ∧
    diags (readINSERT cur src).out
      = ((fields src).filter (fun p => decide (p.1 ∉ recognizedCodes "INSERT"))).map
          (fun p => Diag.unhandled p.1 p.2 "readINSERT") ∧
    diags (readTEXT cur src).out
      = ((fields src).filter (fun p => decide (p.1 ∉ recognizedCodes "TEXT"))).map
          (fun p => Diag.unhandled p.1 p.2 "readTEXT") ∧
    diags (readLINE cur src).out
      = ((fields src).filter (fun p => decide (p.1 ∉ recognizedCodes "LINE"))).map
          (fun p => Diag.unhandled p.1 p.2 "readLINE") ∧
    diags (readPOINT cur src).out
      = ((fields src).filter (fun p => decide (p.1 ∉ recognizedCodes "POINT"))).map
          (fun p => Diag.unhandled p.1 p.2 "readPOINT") ∧
    diags (readPOLYLINE cur src).out
      = ((fields src).filter (fun p => decide (p.1 ∉ recognizedCodes "POLYLINE"))).map
          (fun p => Diag.unhandled p.1 p.2 "readPOLYLINE") ∧
    diags (readVERTEX cur src).out = [] := by
  obtain ⟨d1, d2, d3, d4, d5, d6, d7, d8⟩ := diags_field_loops
  refine ⟨?_, ?_, ?_, ?_, ?_, ?_, ?_, ?_⟩
  · simp only [readSECTION, diags_append, diags_Q_ASSERT,
      whileReadNoZero_diags_nil _ d1, List.nil_append]
    simp [diags]
  · simp only [readBLOCK, diags_append, diags_Q_ASSERT,
      whileReadNoZero_diags_nil _ d2, List.nil_append]
    simp [diags]
  · simp only [readINSERT, diags_append, diags_Q_ASSERT,
      whileReadNoZero_diags _ _ _ d3, List.nil_append]
    simp [diags]
  · simp only [readTEXT, diags_append, diags_Q_ASSERT,
      whileReadNoZero_diags _ _ _ d4, List.nil_append]
    simp [diags]
  · simp only [readLINE, diags_append, diags_Q_ASSERT,
      whileReadNoZero_diags _ _ _ d5, List.nil_append]
    simp [diags]
  · simp only [readPOINT, diags_append, diags_Q_ASSERT,
      whileReadNoZero_diags _ _ _ d6, List.nil_append]
    simp [diags]
  · simp only [readPOLYLINE, diags_append, diags_Q_ASSERT,
      whileReadNoZero_diags _ _ _ d7, List.nil_append]
    simp [diags]
  · simp only [readVERTEX, diags_append, diags_Q_ASSERT,
      whileReadNoZero_diags_nil _ d8, List.nil_append]
    simp [diags]

theorem reference_splitAux_eq (src : List Pair) :
    (Reference.splitAux src).1 = fields src ∧
      (Reference.splitAux src).2 = Reference.splitRecords (afterFields src) := by
  induction src with
  | nil => exact ⟨rfl, rfl⟩
  | cons p t ih =>
    by_cases hp : p.1 = 0
    · simp [Reference.splitAux, Reference.splitRecords, fields, afterFields, isField, hp]
    · have hf : fields (p :: t) = p :: fields t := by simp [fields, isField, hp]
      have ha : afterFields (p :: t) = afterFields t := by simp [afterFields, isField, hp]
      rw [hf, ha]
      simp only [Reference.splitAux, hp, if_false, ih.1, ih.2, and_self]

theorem reference_splitRecords_cons (cur : Pair) (src : List Pair) (hc : cur.1 = 0) :
    Reference.splitRecords (cur :: src)
      = (cur, fields src) :: Reference.splitRecords (afterFields src) := by
  obtain ⟨h1, h2⟩ := reference_splitAux_eq src
  simp only [Reference.splitRecords, Reference.splitAux, hc, if_true, h1, h2]

theorem reference_recordCalls_eq (body : List Pair) :
    ∀ kw, recordEvents kw body = Reference.recordCalls kw body := by
  refine keyword_cases _ ?_ ?_
  · intro kw hkw
    have h1 := runFields_sectionField body ""
    have h2 := runFields_blockField body {}
    have h3 := runFields_insertField body {}
    have h4 := runFields_textField body {}
    have h5 := runFields_lineField body {}
    have h6 := runFields_pointField body {}
    have h7 := runFields_polylineField body {}
    have h8 := runFields_vertexField body {}
    obtain ⟨r1, r2, r3, r4, r5, r6, r7, r8, r9, r10, r11⟩ := recordEvents_known
    simp only [List.mem_cons, List.mem_singleton, List.not_mem_nil, or_false] at hkw
    rcases hkw with h | h | h | h | h | h | h | h | h | h | h | h <;> subst h
    · rfl
    · rw [r1, h1]; rfl
    · rfl
    · rw [r3, h2]; rfl
    · rfl
    · rw [r5, h3]; rfl
    · rw [r6, h4]; rfl
    · rw [r7, h5]; rfl
    · rw [r8, h6]; rfl
    · rw [r9, h7]; rfl
    · rw [r10, h8]; rfl
    · rfl
  · intro kw h
    rw [recordEvents_unknown kw body h]
    have hn : ∀ k ∈ ["EOF", "SECTION", "ENDSEC", "BLOCK", "ENDBLK", "INSERT", "TEXT", "LINE",
        "POINT", "POLYLINE", "VERTEX", "SEQEND"], kw ≠ k := fun k hk e => h (e ▸ hk)
    unfold Reference.recordCalls
    rw [if_neg (hn _ (by decide)), if_neg (hn _ (by decide)), if_neg (hn _ (by decide)),
      if_neg (hn _ (by decide)), if_neg (hn _ (by decide)), if_neg (hn _ (by decide)),
      if_neg (hn _ (by decide)), if_neg (hn _ (by decide)), if_neg (hn _ (by decide)),
      if_neg (hn _ (by decide)), if_neg (hn _ (by decide))]

theorem reference_parse_eq (src : List Pair) :
    atBoundary src = true → events (readAll src).out = Reference.parse src := by
  induction src using stream_induction with
  | hnil => intro _; rw [readAll_nil]; rfl
  | hcons cur src ih =>
    intro hb
    have hc : cur.1 = 0 := by simpa [atBoundary] using hb
    have ih1 := ih (atBoundary_afterFields src)
    unfold Reference.parse at ih1 ⊢
    rw [reference_splitRecords_cons cur src hc]
    by_cases hv : cur.2 = "EOF"
    · have e : cur = (cur.1, "EOF") := Prod.ext rfl hv
      rw [e, readAll_EOF]
      simp [events_Q_ASSERT]
    · rw [events_readAll_cons cur src hv, ih1, reference_recordCalls_eq]
      simp [hv]


theorem events_end_markers (cur : Pair) (src : List Pair) :
    (events (readENDSEC cur src).out = [Event.addENDSEC] ∧
      (readENDSEC cur src).rest = afterFields src) ∧
    (events (readENDBLK cur src).out = [Event.addENDBLK] ∧
      (readENDBLK cur src).rest = afterFields src) ∧
    (events (readSEQEND cur src).out = [Event.addSEQEND] ∧
      (readSEQEND cur src).rest = afterFields src) := by
  obtain ⟨_, e2, _, e4, _, _, _, _, _, _, e11⟩ := events_readers cur src
  exact ⟨⟨e2, skip_eq src⟩, ⟨e4, skip_eq src⟩, ⟨e11, skip_eq src⟩⟩

/-- The calls on the sink of a stream with a record in the middle: those of
what precedes (when it has no terminal record), those of the record, those of
what follows. -/
theorem events_readAll_middle (pre body rest : List Pair) (kw : String) (hkw : kw ≠ "EOF")
    (hpre : atBoundary pre = true) (hno : ((0 : Int), "EOF") ∉ pre)
    (hbody : ∀ p ∈ body, p.1 ≠ 0) (hrest : atBoundary rest = true) :
    events (readAll (pre ++ ((0, kw) :: body ++ rest))).out
      = events (readAll pre).out ++ (recordEvents kw body ++ events (readAll rest).out) := by
  have hx : atBoundary (((0 : Int), kw) :: body ++ rest) = true := rfl
  rw [readAll_append pre _ hx hpre hno]
  simp only [events_append]
  rw [List.cons_append, events_readAll_record 0 kw body rest hkw hbody hrest]


/-! ## The claims -/

/-- C1. The concrete scenario of the specification: SECTION ENTITIES, one LINE
on layer "0" from (1, 2, 0) to (3, 4, 0), ENDSEC, EOF.  The run makes exactly
three calls on the sink, in this order: `addSECTION "ENTITIES"`, `addENTITY` of
that line, `addENDSEC`; it writes no diagnostic, no assertion fails, and it
stops at the EOF pair: whatever follows that pair is left unread. -/
theorem readAll_concrete_scenario (tail : List Pair) :
    readAll ([(0, "SECTION"), (2, "ENTITIES"), (0, "LINE"), (8, "0"), (10, "1.0"), (20, "2.0"),
        (30, "0.0"), (11, "3.0"), (21, "4.0"), (31, "0.0"), (0, "ENDSEC"), (0, "EOF")] ++ tail) =
      { out := [Output.sink (Event.addSECTION "ENTITIES"),
          Output.sink (Event.addENTITY (DxfEntity.line
            { layer := "0", x1 := 1, y1 := 2, z1 := 0, x2 := 3, y2 := 4, z2 := 0 })),
          Output.sink Event.addENDSEC],
        rest := tail } := by
  have h := readAll_append
    [(0, "SECTION"), (2, "ENTITIES"), (0, "LINE"), (8, "0"), (10, "1.0"), (20, "2.0"),
      (30, "0.0"), (11, "3.0"), (21, "4.0"), (31, "0.0"), (0, "ENDSEC")]
    (((0 : Int), "EOF") :: tail) rfl rfl (by decide)
  have e : (readAll [(0, "SECTION"), (2, "ENTITIES"), (0, "LINE"), (8, "0"), (10, "1.0"),
      (20, "2.0"), (30, "0.0"), (11, "3.0"), (21, "4.0"), (31, "0.0"), (0, "ENDSEC")]).out =
      [Output.sink (Event.addSECTION "ENTITIES"),
        Output.sink (Event.addENTITY (DxfEntity.line
          { layer := "0", x1 := 1, y1 := 2, z1 := 0, x2 := 3, y2 := 4, z2 := 0 })),
        Output.sink Event.addENDSEC] := by decide!
  rw [readAll_EOF, e] at h
  simpa [Q_ASSERT] using h

/-- C2. An unknown record between well-formed ones is dropped wholesale: for
streams `a` and `b` that are empty or begin with a code-0 pair, and a record
`(0, kw)` with a body of field pairs whose keyword is none of the twelve the
dispatcher knows, the calls made on the sink for `a ++ u ++ b` are those made
for `a ++ b`. -/
theorem unknown_record_dropped (a b body : List Pair) (kw : String)
    (ha : atBoundary a = true) (hb : atBoundary b = true) (hbody : ∀ p ∈ body, p.1 ≠ 0)
    (hkw : kw ∉ ["EOF", "SECTION", "ENDSEC", "BLOCK", "ENDBLK", "INSERT", "TEXT", "LINE",
      "POINT", "POLYLINE", "VERTEX", "SEQEND"]) :
    events (readAll (a ++ ((0, kw) :: body) ++ b)).out = events (readAll (a ++ b)).out := by
  have hne : kw ≠ "EOF" := fun e => hkw (by rw [e]; decide)
  have hu : atBoundary (((0 : Int), kw) :: (body ++ b)) = true := rfl
  revert ha
  induction a using stream_induction with
  | hnil =>
    intro _
    rw [List.nil_append, List.cons_append, readAll_step _ _ hne, fields_append body b hbody hb,
      afterFields_append body b hbody hb, recordOut, readAllBody_unknown _ _ hkw]
    simp only [events_append, events_Q_ASSERT, List.nil_append]
    rfl
  | hcons cur src ih =>
    intro ha
    by_cases hv : cur.2 = "EOF"
    · have e : cur = (cur.1, "EOF") := Prod.ext rfl hv
      rw [e]
      simp only [List.cons_append, readAll_EOF]
    · have ih1 := ih (atBoundary_afterFields src)
      simp only [List.append_assoc, List.cons_append] at ih1 ⊢
      rw [readAll_step cur _ hv, readAll_step cur _ hv, fields_append_boundary src _ hu,
        afterFields_append_boundary src _ hu, fields_append_boundary src b hb,
        afterFields_append_boundary src b hb]
      simp only [events_append, ih1]

theorem unknown_record_dropped_witness :
    events (readAll ([(0, "POINT"), (10, "1")] ++ ((0, "CIRCLE") :: [(40, "2.5"), (8, "L")])
        ++ [(0, "LINE"), (8, "0")])).out
      = events (readAll ([(0, "POINT"), (10, "1")] ++ [(0, "LINE"), (8, "0")])).out :=
  unknown_record_dropped [(0, "POINT"), (10, "1")] [(0, "LINE"), (8, "0")]
    [(40, "2.5"), (8, "L")] "CIRCLE" rfl rfl (by decide) (by decide)

/-- C3. An unrecognized field code inside a known record: for each of the eight
record kinds that read fields and every record body, a pair inserted anywhere
in the body whose code is not 0 and is none of the codes the kind recognizes
leaves the call on the sink unchanged.  With or without the pair the record
makes exactly one call `e`, the same in both runs (so every attribute set
before and after the pair is intact), followed by the calls of what follows. -/
theorem unrecognized_field_ignored (kw : String) (xs ys rest : List Pair) (u : Pair)
    (hkw : kw ∈ ["SECTION", "BLOCK", "INSERT", "TEXT", "LINE", "POINT", "POLYLINE", "VERTEX"])
    (hxs : ∀ p ∈ xs, p.1 ≠ 0) (hys : ∀ p ∈ ys, p.1 ≠ 0) (hu0 : u.1 ≠ 0)
    (hu : u.1 ∉ recognizedCodes kw) (hrest : atBoundary rest = true) :
    ∃ e : Event,
      events (readAll ((0, kw) :: (xs ++ u :: ys) ++ rest)).out = e :: events (readAll rest).out ∧
      events (readAll ((0, kw) :: (xs ++ ys) ++ rest)).out = e :: events (readAll rest).out := by
  have hne : kw ≠ "EOF" := by
    intro e; rw [e] at hkw; revert hkw; decide
  have hb1 : ∀ p ∈ xs ++ u :: ys, p.1 ≠ 0 := by
    intro p hp
    rcases List.mem_append.1 hp with h | h
    · exact hxs p h
    · rcases List.mem_cons.1 h with h | h
      · rw [h]; exact hu0
      · exact hys p h
  have hb2 : ∀ p ∈ xs ++ ys, p.1 ≠ 0 := by
    intro p hp
    rcases List.mem_append.1 hp with h | h
    · exact hxs p h
    · exact hys p h
  have key : recordEvents kw (xs ++ u :: ys) = recordEvents kw (xs ++ ys) ∧
      ∃ e, recordEvents kw (xs ++ ys) = [e] := by
    obtain ⟨f1, f2, f3, f4, f5, f6, f7, f8⟩ := field_unrecognized u
    obtain ⟨r1, _, r3, _, r5, r6, r7, r8, r9, r10, _⟩ := recordEvents_known
    simp only [List.mem_cons, List.mem_singleton, List.not_mem_nil, or_false] at hkw
    rcases hkw with h | h | h | h | h | h | h | h <;> subst h
    · rw [r1, r1, runFields_skip _ u (f1 hu)]; exact ⟨rfl, _, rfl⟩
    · rw [r3, r3, runFields_skip _ u (f2 hu)]; exact ⟨rfl, _, rfl⟩
    · rw [r5, r5, runFields_skip _ u (f3 hu)]; exact ⟨rfl, _, rfl⟩
    · rw [r6, r6, runFields_skip _ u (f4 hu)]; exact ⟨rfl, _, rfl⟩
    · rw [r7, r7, runFields_skip _ u (f5 hu)]; exact ⟨rfl, _, rfl⟩
    · rw [r8, r8, runFields_skip _ u (f6 hu)]; exact ⟨rfl, _, rfl⟩
    · rw [r9, r9, runFields_skip _ u (f7 hu)]; exact ⟨rfl, _, rfl⟩
    · rw [r10, r10, runFields_skip _ u (f8 hu)]; exact ⟨rfl, _, rfl⟩
  obtain ⟨k1, e, k2⟩ := key
  refine ⟨e, ?_, ?_⟩
  · rw [List.cons_append, events_readAll_record 0 kw _ rest hne hb1 hrest, k1, k2]
    rfl
  · rw [List.cons_append, events_readAll_record 0 kw _ rest hne hb2 hrest, k2]
    rfl

theorem unrecognized_field_ignored_witness :
    ∃ e : Event,
      events (readAll ((0, "LINE") :: ([(8, "L"), (10, "1")] ++ (62, "7") :: [(11, "3")])
        ++ [(0, "EOF")])).out = e :: events (readAll [(0, "EOF")]).out ∧
      events (readAll ((0, "LINE") :: ([(8, "L"), (10, "1")] ++ [(11, "3")])
        ++ [(0, "EOF")])).out = e :: events (readAll [(0, "EOF")]).out :=
  unrecognized_field_ignored "LINE" [(8, "L"), (10, "1")] [(11, "3")] [(0, "EOF")] (62, "7")
    (by decide) (by decide) (by decide) (by decide) (by decide) rfl

/-- C4. Polyline grouping: a stream made of one POLYLINE record, then `n`
VERTEX records, then one SEQEND record (with any bodies of field pairs) makes
exactly `n + 2` calls on the sink: `addENTITY` of the polyline record first,
then one `addVERTEX` per VERTEX record, in input order, each built from the
body of its own record, then `addSEQEND`.  The attributes are the coerced
values of the last pair with the code of the attribute, the zero default when
there is none. -/
theorem polyline_grouping (pb sb : List Pair) (vbs : List (List Pair))
    (hpb : ∀ p ∈ pb, p.1 ≠ 0) (hvbs : ∀ vb ∈ vbs, ∀ p ∈ vb, p.1 ≠ 0)
    (hsb : ∀ p ∈ sb, p.1 ≠ 0) :
    events (readAll ((0, "POLYLINE") :: pb ++ records "VERTEX" vbs ++ (0, "SEQEND") :: sb)).out =
        Event.addENTITY (DxfEntity.polyline
            { layer := strAttr 8 pb "", flags := intAttr 70 pb 0 })
          :: vbs.map (fun vb => Event.addVERTEX
            { layer := strAttr 8 vb "", x := numAttr 10 vb 0, y := numAttr 20 vb 0,
              flags := intAttr 70 vb 0 })
          ++ [Event.addSEQEND] ∧
      (events (readAll
        ((0, "POLYLINE") :: pb ++ records "VERTEX" vbs ++ (0, "SEQEND") :: sb)).out).length
        = vbs.length + 2 := by
  have hx : atBoundary (((0 : Int), "SEQEND") :: sb) = true := rfl
  have main : events (readAll
      ((0, "POLYLINE") :: pb ++ records "VERTEX" vbs ++ (0, "SEQEND") :: sb)).out =
      Event.addENTITY (DxfEntity.polyline
          { layer := strAttr 8 pb "", flags := intAttr 70 pb 0 })
        :: vbs.map (fun vb => Event.addVERTEX
          { layer := strAttr 8 vb "", x := numAttr 10 vb 0, y := numAttr 20 vb 0,
            flags := intAttr 70 vb 0 })
        ++ [Event.addSEQEND] := by
    have e : (0, "POLYLINE") :: pb ++ records "VERTEX" vbs ++ (0, "SEQEND") :: sb
        = (0, "POLYLINE") :: (pb ++ (records "VERTEX" vbs ++ (0, "SEQEND") :: sb)) := by
      simp
    rw [e, events_readAll_record 0 "POLYLINE" pb _ (by decide) hpb
      (atBoundary_records_append _ vbs _ hx), events_readAll_records_VERTEX vbs _ hx hvbs,
      events_readAll_last 0 "SEQEND" sb (by decide) hsb]
    have hp := runFields_polylineField pb {}
    have hv : ∀ vb, runFields vertexField {} vb =
        { layer := strAttr 8 vb "", x := numAttr 10 vb 0, y := numAttr 20 vb 0,
          flags := intAttr 70 vb 0 } := fun vb => runFields_vertexField vb {}
    simp only [hv]
    show [Event.addENTITY (DxfEntity.polyline (runFields polylineField {} pb))] ++ _ = _
    rw [hp]
    rfl
  refine ⟨main, ?_⟩
  rw [main]
  simp

theorem polyline_grouping_witness :
    events (readAll ((0, "POLYLINE") :: [(66, "1"), (8, "L"), (70, "1")]
        ++ records "VERTEX" [[(8, "L"), (10, "1.5"), (20, "2")], [(10, "3"), (20, "4")]]
        ++ (0, "SEQEND") :: [(8, "L")])).out =
        Event.addENTITY (DxfEntity.polyline
            { layer := strAttr 8 [(66, "1"), (8, "L"), (70, "1")] "",
              flags := intAttr 70 [(66, "1"), (8, "L"), (70, "1")] 0 })
          :: [[(8, "L"), (10, "1.5"), (20, "2")], [(10, "3"), (20, "4")]].map
            (fun vb => Event.addVERTEX
              { layer := strAttr 8 vb "", x := numAttr 10 vb 0, y := numAttr 20 vb 0,
                flags := intAttr 70 vb 0 })
          ++ [Event.addSEQEND] ∧
      (events (readAll ((0, "POLYLINE") :: [(66, "1"), (8, "L"), (70, "1")]
        ++ records "VERTEX" [[(8, "L"), (10, "1.5"), (20, "2")], [(10, "3"), (20, "4")]]
        ++ (0, "SEQEND") :: [(8, "L")])).out).length
        = [[(8, "L"), (10, "1.5"), (20, "2")], [(10, "3"), (20, "4")]].length + 2 :=
  polyline_grouping [(66, "1"), (8, "L"), (70, "1")] [(8, "L")]
    [[(8, "L"), (10, "1.5"), (20, "2")], [(10, "3"), (20, "4")]]
    (by decide) (by decide) (by decide)

/-- C5. Terminal-keyword law: for a stream `pre` that is empty or begins with a
code-0 pair and holds no pair `(0, "EOF")`, and for any `rest`, the run on
`pre ++ (0, "EOF") :: rest` makes the calls on the sink the run on `pre` makes
(it even observes exactly the same outputs), leaves `rest` unread, and `pre`
itself is read to its end: a field pair of `pre` whose value is "EOF" does not
terminate the parse. -/
theorem terminal_keyword_law (pre rest : List Pair) (hpre : atBoundary pre = true)
    (hno : ((0 : Int), "EOF") ∉ pre) :
    events (readAll (pre ++ (0, "EOF") :: rest)).out = events (readAll pre).out ∧
      (readAll (pre ++ (0, "EOF") :: rest)).out = (readAll pre).out ∧
      (readAll (pre ++ (0, "EOF") :: rest)).rest = rest ∧
      (readAll pre).rest = [] := by
  have h := readAll_append_EOF pre rest hpre hno
  refine ⟨by rw [h], by rw [h], by rw [h], readAll_rest_of_no_EOF pre hpre hno⟩

theorem terminal_keyword_law_witness :
    events (readAll ([(0, "TEXT"), (1, "EOF")] ++ (0, "EOF") :: [(0, "LINE"), (8, "0")])).out
        = events (readAll [(0, "TEXT"), (1, "EOF")]).out ∧
      (readAll ([(0, "TEXT"), (1, "EOF")] ++ (0, "EOF") :: [(0, "LINE"), (8, "0")])).out
        = (readAll [(0, "TEXT"), (1, "EOF")]).out ∧
      (readAll ([(0, "TEXT"), (1, "EOF")] ++ (0, "EOF") :: [(0, "LINE"), (8, "0")])).rest
        = [(0, "LINE"), (8, "0")] ∧
      (readAll [(0, "TEXT"), (1, "EOF")]).rest = [] :=
  terminal_keyword_law [(0, "TEXT"), (1, "EOF")] [(0, "LINE"), (8, "0")] rfl (by decide)

/-- C6. Absent fields keep zero defaults: for each of the eight record kinds that
read fields, the record with the body `body` makes one call on the sink, and
each attribute of the record it passes whose code occurs in no pair of the body
has the zero default of its type: the empty string, 0.0 or 0.  In particular a
LINE without a code-31 pair has `z2 = 0` and a TEXT without a code-50 pair has
`rotation = 0`. -/
theorem absent_fields_keep_defaults (body rest : List Pair) (hbody : ∀ p ∈ body, p.1 ≠ 0)
    (hrest : atBoundary rest = true) :
    (∃ r : String,
      events (readAll ((0, "SECTION") :: body ++ rest)).out
        = Event.addSECTION r :: events (readAll rest).out ∧
      ((∀ p ∈ body, p.1 ≠ 2) → r = "")) ∧
    (∃ r : DxfBlock,
      events (readAll ((0, "BLOCK") :: body ++ rest)).out
        = Event.addBLOCK r :: events (readAll rest).out ∧
      ((∀ p ∈ body, p.1 ≠ 8) → r.layer = "") ∧
      ((∀ p ∈ body, p.1 ≠ 2) → r.name = "") ∧
      ((∀ p ∈ body, p.1 ≠ 70) → r.flags = 0) ∧
      ((∀ p ∈ body, p.1 ≠ 10) → r.x = 0) ∧
      ((∀ p ∈ body, p.1 ≠ 20) → r.y = 0) ∧
      ((∀ p ∈ body, p.1 ≠ 30) → r.z = 0)) ∧
    (∃ r : DxfInsert,
      events (readAll ((0, "INSERT") :: body ++ rest)).out
        = Event.addENTITY (DxfEntity.insert r) :: events (readAll rest).out ∧
      ((∀ p ∈ body, p.1 ≠ 2) → r.block = "") ∧
      ((∀ p ∈ body, p.1 ≠ 8) → r.layer = "") ∧
      ((∀ p ∈ body, p.1 ≠ 10) → r.x = 0) ∧
      ((∀ p ∈ body, p.1 ≠ 20) → r.y = 0) ∧
      ((∀ p ∈ body, p.1 ≠ 30) → r.z = 0)) ∧
    (∃ r : DxfText,
      events (readAll ((0, "TEXT") :: body ++ rest)).out
        = Event.addENTITY (DxfEntity.text r) :: events (readAll rest).out ∧
      ((∀ p ∈ body, p.1 ≠ 1) → r.text = "") ∧
      ((∀ p ∈ body, p.1 ≠ 8) → r.layer = "") ∧
      ((∀ p ∈ body, p.1 ≠ 10) → r.x = 0) ∧
      ((∀ p ∈ body, p.1 ≠ 20) → r.y = 0) ∧
      ((∀ p ∈ body, p.1 ≠ 30) → r.z = 0) ∧
      ((∀ p ∈ body, p.1 ≠ 40) → r.size = 0) ∧
      ((∀ p ∈ body, p.1 ≠ 50) → r.rotation = 0)) ∧
    (∃ r : DxfLine,
      events (readAll ((0, "LINE") :: body ++ rest)).out
        = Event.addENTITY (DxfEntity.line r) :: events (readAll rest).out ∧
      ((∀ p ∈ body, p.1 ≠ 8) → r.layer = "") ∧
      ((∀ p ∈ body, p.1 ≠ 10) → r.x1 = 0) ∧
      ((∀ p ∈ body, p.1 ≠ 20) → r.y1 = 0) ∧
      ((∀ p ∈ body, p.1 ≠ 30) → r.z1 = 0) ∧
      ((∀ p ∈ body, p.1 ≠ 11) → r.x2 = 0) ∧
      ((∀ p ∈ body, p.1 ≠ 21) → r.y2 = 0) ∧
      ((∀ p ∈ body, p.1 ≠ 31) → r.z2 = 0)) ∧
    (∃ r : DxfPoint,
      events (readAll ((0, "POINT") :: body ++ rest)).out
        = Event.addENTITY (DxfEntity.point r) :: events (readAll rest).out ∧
      ((∀ p ∈ body, p.1 ≠ 8) → r.layer = "") ∧
      ((∀ p ∈ body, p.1 ≠ 10) → r.x = 0) ∧
      ((∀ p ∈ body, p.1 ≠ 20) → r.y = 0) ∧
      ((∀ p ∈ body, p.1 ≠ 30) → r.z = 0)) ∧
    (∃ r : DxfPolyline,
      events (readAll ((0, "POLYLINE") :: body ++ rest)).out
        = Event.addENTITY (DxfEntity.polyline r) :: events (readAll rest).out ∧
      ((∀ p ∈ body, p.1 ≠ 8) → r.layer = "") ∧
      ((∀ p ∈ body, p.1 ≠ 70) → r.flags = 0)) ∧
    (∃ r : DxfVertex,
      events (readAll ((0, "VERTEX") :: body ++ rest)).out
        = Event.addVERTEX r :: events (readAll rest).out ∧
      ((∀ p ∈ body, p.1 ≠ 8) → r.layer = "") ∧
      ((∀ p ∈ body, p.1 ≠ 10) → r.x = 0) ∧
      ((∀ p ∈ body, p.1 ≠ 20) → r.y = 0) ∧
      ((∀ p ∈ body, p.1 ≠ 70) → r.flags = 0)) := by
  obtain ⟨h1, h2, h3, h4, h5, h6, h7, h8⟩ := events_readAll_closed body rest hbody hrest
  refine ⟨?_, ?_, ?_, ?_, ?_, ?_, ?_, ?_⟩
  · exact ⟨_, h1, fun h => strAttr_absent _ _ _ h⟩
  · exact ⟨_, h2, fun h => strAttr_absent _ _ _ h, fun h => strAttr_absent _ _ _ h, fun h => intAttr_absent _ _ _ h, fun h => numAttr_absent _ _ _ h, fun h => numAttr_absent _ _ _ h, fun h => numAttr_absent _ _ _ h⟩
  · exact ⟨_, h3, fun h => strAttr_absent _ _ _ h, fun h => strAttr_absent _ _ _ h, fun h => numAttr_absent _ _ _ h, fun h => numAttr_absent _ _ _ h, fun h => numAttr_absent _ _ _ h⟩
  · exact ⟨_, h4, fun h => strAttr_absent _ _ _ h, fun h => strAttr_absent _ _ _ h, fun h => numAttr_absent _ _ _ h, fun h => numAttr_absent _ _ _ h, fun h => numAttr_absent _ _ _ h, fun h => numAttr_absent _ _ _ h, fun h => numAttr_absent _ _ _ h⟩
  · exact ⟨_, h5, fun h => strAttr_absent _ _ _ h, fun h => numAttr_absent _ _ _ h, fun h => numAttr_absent _ _ _ h, fun h => numAttr_absent _ _ _ h, fun h => numAttr_absent _ _ _ h, fun h => numAttr_absent _ _ _ h, fun h => numAttr_absent _ _ _ h⟩
  · exact ⟨_, h6, fun h => strAttr_absent _ _ _ h, fun h => numAttr_absent _ _ _ h, fun h => numAttr_absent _ _ _ h, fun h => numAttr_absent _ _ _ h⟩
  · exact ⟨_, h7, fun h => strAttr_absent _ _ _ h, fun h => intAttr_absent _ _ _ h⟩
  · exact ⟨_, h8, fun h => strAttr_absent _ _ _ h, fun h => numAttr_absent _ _ _ h, fun h => numAttr_absent _ _ _ h, fun h => intAttr_absent _ _ _ h⟩

theorem absent_fields_keep_defaults_witness :
    ∃ r : DxfLine,
      events (readAll ((0, "LINE") :: [(8, "L"), (10, "1"), (11, "3")] ++ [(0, "EOF")])).out
        = Event.addENTITY (DxfEntity.line r) :: events (readAll [(0, "EOF")]).out ∧
      ((∀ p ∈ [((8 : Int), "L"), (10, "1"), (11, "3")], p.1 ≠ 8) → r.layer = "") ∧
      ((∀ p ∈ [((8 : Int), "L"), (10, "1"), (11, "3")], p.1 ≠ 10) → r.x1 = 0) ∧
      ((∀ p ∈ [((8 : Int), "L"), (10, "1"), (11, "3")], p.1 ≠ 20) → r.y1 = 0) ∧
      ((∀ p ∈ [((8 : Int), "L"), (10, "1"), (11, "3")], p.1 ≠ 30) → r.z1 = 0) ∧
      ((∀ p ∈ [((8 : Int), "L"), (10, "1"), (11, "3")], p.1 ≠ 11) → r.x2 = 0) ∧
      ((∀ p ∈ [((8 : Int), "L"), (10, "1"), (11, "3")], p.1 ≠ 21) → r.y2 = 0) ∧
      ((∀ p ∈ [((8 : Int), "L"), (10, "1"), (11, "3")], p.1 ≠ 31) → r.z2 = 0) :=
  (absent_fields_keep_defaults [(8, "L"), (10, "1"), (11, "3")] [(0, "EOF")]
    (by decide) rfl).2.2.2.2.1

/-- C7. Lenient numeric coercion.  A text that is not a number converts to 0.0
with `toDouble` and to 0 with `toInt` ("abc" is such a text).  For each record
kind with numeric fields: when the loop body meets a floating-typed field whose
text is not a number, or an integer-typed field (code 70) whose text is not an
integer, it sets the attribute of that code to 0 and writes nothing (no error,
no diagnostic); and the record makes its one call on the sink with the state
of the loop after all the pairs of the body, so the fields after such a pair
are processed and the record is emitted. -/
theorem lenient_numeric_coercion (body rest : List Pair) (hbody : ∀ p ∈ body, p.1 ≠ 0)
    (hrest : atBoundary rest = true) :
    ((∀ v, parseDouble v = none → toDouble v = 0) ∧ (∀ v, parseInt v = none → toInt v = 0) ∧
      parseDouble "abc" = none ∧ parseInt "abc" = none) ∧
    (events (readAll ((0, "BLOCK") :: body ++ rest)).out
        = Event.addBLOCK (runFields blockField {} body)
          :: events (readAll rest).out ∧
      (∀ s v, parseInt v = none → blockField s (70, v) = ({ s with flags := 0 }, [])) ∧
      (∀ s v, parseDouble v = none → blockField s (10, v) = ({ s with x := 0 }, [])) ∧
      (∀ s v, parseDouble v = none → blockField s (20, v) = ({ s with y := 0 }, [])) ∧
      (∀ s v, parseDouble v = none → blockField s (30, v) = ({ s with z := 0 }, []))) ∧
    (events (readAll ((0, "INSERT") :: body ++ rest)).out
        = Event.addENTITY (DxfEntity.insert (runFields insertField {} body))
          :: events (readAll rest).out ∧
      (∀ s v, parseDouble v = none → insertField s (10, v) = ({ s with x := 0 }, [])) ∧
      (∀ s v, parseDouble v = none → insertField s (20, v) = ({ s with y := 0 }, [])) ∧
      (∀ s v, parseDouble v = none → insertField s (30, v) = ({ s with z := 0 }, []))) ∧
    (events (readAll ((0, "TEXT") :: body ++ rest)).out
        = Event.addENTITY (DxfEntity.text (runFields textField {} body))
          :: events (readAll rest).out ∧
      (∀ s v, parseDouble v = none → textField s (10, v) = ({ s with x := 0 }, [])) ∧
      (∀ s v, parseDouble v = none → textField s (20, v) = ({ s with y := 0 }, [])) ∧
      (∀ s v, parseDouble v = none → textField s (30, v) = ({ s with z := 0 }, [])) ∧
      (∀ s v, parseDouble v = none → textField s (40, v) = ({ s with size := 0 }, [])) ∧
      (∀ s v, parseDouble v = none → textField s (50, v) = ({ s with rotation := 0 }, []))) ∧
    (events (readAll ((0, "LINE") :: body ++ rest)).out
        = Event.addENTITY (DxfEntity.line (runFields lineField {} body))
          :: events (readAll rest).out ∧
      (∀ s v, parseDouble v = none → lineField s (10, v) = ({ s with x1 := 0 }, [])) ∧
      (∀ s v, parseDouble v = none → lineField s (20, v) = ({ s with y1 := 0 }, [])) ∧
      (∀ s v, parseDouble v = none → lineField s (30, v) = ({ s with z1 := 0 }, [])) ∧
      (∀ s v, parseDouble v = none → lineField s (11, v) = ({ s with x2 := 0 }, [])) ∧
      (∀ s v, parseDouble v = none → lineField s (21, v) = ({ s with y2 := 0 }, [])) ∧
      (∀ s v, parseDouble v = none → lineField s (31, v) = ({ s with z2 := 0 }, []))) ∧
    (events (readAll ((0, "POINT") :: body ++ rest)).out
        = Event.addENTITY (DxfEntity.point (runFields pointField {} body))
          :: events (readAll rest).out ∧
      (∀ s v, parseDouble v = none → pointField s (10, v) = ({ s with x := 0 }, [])) ∧
      (∀ s v, parseDouble v = none → pointField s (20, v) = ({ s with y := 0 }, [])) ∧
      (∀ s v, parseDouble v = none → pointField s (30, v) = ({ s with z := 0 }, []))) ∧
    (events (readAll ((0, "POLYLINE") :: body ++ rest)).out
        = Event.addENTITY (DxfEntity.polyline (runFields polylineField {} body))
          :: events (readAll rest).out ∧
      (∀ s v, parseInt v = none → polylineField s (70, v) = ({ s with flags := 0 }, []))) ∧
    (events (readAll ((0, "VERTEX") :: body ++ rest)).out
        = Event.addVERTEX (runFields vertexField {} body)
          :: events (readAll rest).out ∧
      (∀ s v, parseDouble v = none → vertexField s (10, v) = ({ s with x := 0 }, [])) ∧
      (∀ s v, parseDouble v = none → vertexField s (20, v) = ({ s with y := 0 }, [])) ∧
      (∀ s v, parseInt v = none → vertexField s (70, v) = ({ s with flags := 0 }, []))) := by
  obtain ⟨_, g2, g3, g4, g5, g6, g7, g8⟩ := events_readAll_kinds body rest hbody hrest
  refine ⟨⟨?_, ?_, ?_, ?_⟩, ?_, ?_, ?_, ?_, ?_, ?_, ?_⟩
  · intro v h; simp [toDouble, h]
  · intro v h; simp [toInt, h]
  · decide
  · decide
  · refine ⟨?_, ?_, ?_, ?_, ?_⟩
    · exact g2
    · intro s v h; simp [blockField, toDouble, toInt, Q_ASSERT, h]
    · intro s v h; simp [blockField, toDouble, toInt, Q_ASSERT, h]
    · intro s v h; simp [blockField, toDouble, toInt, Q_ASSERT, h]
    · intro s v h; simp [blockField, toDouble, toInt, Q_ASSERT, h]
  · refine ⟨?_, ?_, ?_, ?_⟩
    · exact g3
    · intro s v h; simp [insertField, toDouble, toInt, Q_ASSERT, h]
    · intro s v h; simp [insertField, toDouble, toInt, Q_ASSERT, h]
    · intro s v h; simp [insertField, toDouble, toInt, Q_ASSERT, h]
  · refine ⟨?_, ?_, ?_, ?_, ?_, ?_⟩
    · exact g4
    · intro s v h; simp [textField, toDouble, toInt, Q_ASSERT, h]
    · intro s v h; simp [textField, toDouble, toInt, Q_ASSERT, h]
    · intro s v h; simp [textField, toDouble, toInt, Q_ASSERT, h]
    · intro s v h; simp [textField, toDouble, toInt, Q_ASSERT, h]
    · intro s v h; simp [textField, toDouble, toInt, Q_ASSERT, h]
  · refine ⟨?_, ?_, ?_, ?_, ?_, ?_, ?_⟩
    · exact g5
    · intro s v h; simp [lineField, toDouble, toInt, Q_ASSERT, h]
    · intro s v h; simp [lineField, toDouble, toInt, Q_ASSERT, h]
    · intro s v h; simp [lineField, toDouble, toInt, Q_ASSERT, h]
    · intro s v h; simp [lineField, toDouble, toInt, Q_ASSERT, h]
    · intro s v h; simp [lineField, toDouble, toInt, Q_ASSERT, h]
    · intro s v h; simp [lineField, toDouble, toInt, Q_ASSERT, h]
  · refine ⟨?_, ?_, ?_, ?_⟩
    · exact g6
    · intro s v h; simp [pointField, toDouble, toInt, Q_ASSERT, h]
    · intro s v h; simp [pointField, toDouble, toInt, Q_ASSERT, h]
    · intro s v h; simp [pointField, toDouble, toInt, Q_ASSERT, h]
  · refine ⟨?_, ?_⟩
    · exact g7
    · intro s v h; simp [polylineField, toDouble, toInt, Q_ASSERT, h]
  · refine ⟨?_, ?_, ?_, ?_⟩
    · exact g8
    · intro s v h; simp [vertexField, toDouble, toInt, Q_ASSERT, h]
    · intro s v h; simp [vertexField, toDouble, toInt, Q_ASSERT, h]
    · intro s v h; simp [vertexField, toDouble, toInt, Q_ASSERT, h]

theorem lenient_numeric_coercion_witness :
    events (readAll ((0, "LINE") :: [(8, "L"), (10, "abc"), (11, "3")] ++ [(0, "EOF")])).out
        = Event.addENTITY (DxfEntity.line
            (runFields lineField {} [(8, "L"), (10, "abc"), (11, "3")]))
          :: events (readAll [(0, "EOF")]).out ∧
      (∀ s v, parseDouble v = none → lineField s (10, v) = ({ s with x1 := 0 }, [])) ∧
      (∀ s v, parseDouble v = none → lineField s (20, v) = ({ s with y1 := 0 }, [])) ∧
      (∀ s v, parseDouble v = none → lineField s (30, v) = ({ s with z1 := 0 }, [])) ∧
      (∀ s v, parseDouble v = none → lineField s (11, v) = ({ s with x2 := 0 }, [])) ∧
      (∀ s v, parseDouble v = none → lineField s (21, v) = ({ s with y2 := 0 }, [])) ∧
      (∀ s v, parseDouble v = none → lineField s (31, v) = ({ s with z2 := 0 }, [])) :=
  (lenient_numeric_coercion [(8, "L"), (10, "abc"), (11, "3")] [(0, "EOF")]
    (by decide) rfl).2.2.2.2.1

/-- C8. Implicit terminator: for a stream `s` that is empty or begins with a
code-0 pair and holds no pair `(0, "EOF")`, the run reaches the physical end of
`s` (nothing is left unread) and returns without a failed assertion; the calls
it makes on the sink are those it makes for `s ++ [(0, "EOF")]`; and the last
record of `s` is emitted: when `s` ends with the record `cur` and its body, the
calls are those for what precedes, followed by those of that record. -/
theorem implicit_terminator (s : List Pair) (hs : atBoundary s = true)
    (hno : ((0 : Int), "EOF") ∉ s) :
    (readAll s).rest = [] ∧ assertFailures (readAll s).out = [] ∧
      events (readAll s).out = events (readAll (s ++ [(0, "EOF")])).out ∧
      (readAll (s ++ [(0, "EOF")])).rest = [] ∧
      ∀ (pre : List Pair) (cur : Pair) (body : List Pair), s = pre ++ cur :: body →
        atBoundary pre = true → cur.1 = 0 → (∀ p ∈ body, p.1 ≠ 0) →
        events (readAll s).out = events (readAll pre).out ++ events (recordOut cur body) := by
  have h := readAll_append_EOF s [] hs hno
  refine ⟨readAll_rest_of_no_EOF s hs hno, assertFailures_readAll s hs, by rw [h], by rw [h], ?_⟩
  intro pre cur body e hpre hc hbody
  subst e
  have hno1 : ((0 : Int), "EOF") ∉ pre := fun hm => hno (List.mem_append_left _ hm)
  have hv : cur.2 ≠ "EOF" := by
    intro hv
    apply hno
    have : cur = ((0 : Int), "EOF") := Prod.ext hc hv
    rw [← this]
    exact List.mem_append_right _ (List.mem_cons_self _ _)
  have hx : atBoundary (cur :: body) = true := by simp [atBoundary, hc]
  rw [readAll_append pre (cur :: body) hx hpre hno1, readAll_step cur body hv]
  have hf := fields_append body [] hbody rfl
  have haf := afterFields_append body [] hbody rfl
  rw [List.append_nil] at hf haf
  rw [hf, haf, readAll_nil]
  simp [events_append, events_Q_ASSERT]

theorem implicit_terminator_witness :
    (readAll [(0, "SECTION"), (2, "ENTITIES"), (0, "POINT"), (10, "1")]).rest = [] ∧
      assertFailures (readAll [(0, "SECTION"), (2, "ENTITIES"), (0, "POINT"), (10, "1")]).out
        = [] ∧
      events (readAll [(0, "SECTION"), (2, "ENTITIES"), (0, "POINT"), (10, "1")]).out
        = events (readAll ([(0, "SECTION"), (2, "ENTITIES"), (0, "POINT"), (10, "1")]
            ++ [(0, "EOF")])).out ∧
      (readAll ([(0, "SECTION"), (2, "ENTITIES"), (0, "POINT"), (10, "1")]
        ++ [(0, "EOF")])).rest = [] ∧
      ∀ (pre : List Pair) (cur : Pair) (body : List Pair),
        [(0, "SECTION"), (2, "ENTITIES"), (0, "POINT"), (10, "1")] = pre ++ cur :: body →
        atBoundary pre = true → cur.1 = 0 → (∀ p ∈ body, p.1 ≠ 0) →
        events (readAll [(0, "SECTION"), (2, "ENTITIES"), (0, "POINT"), (10, "1")]).out
          = events (readAll pre).out ++ events (recordOut cur body) :=
  implicit_terminator [(0, "SECTION"), (2, "ENTITIES"), (0, "POINT"), (10, "1")] rfl (by decide)

/-- C9. Field-to-attribute mapping of the simple entity readers: the INSERT,
TEXT, LINE and POINT record with the body `body` makes one call `addENTITY` on
the sink, and for each code of the table, when `(c, v)` is the last pair of the
body with the code `c` (whatever the pairs `xs` before it and the pairs `ys`
after it, none of which has the code `c`), the attribute of the code is the
coerced value of `v`: `v` itself for the texts, `toDouble v` for the numbers. -/
theorem last_field_wins (body rest : List Pair) (hbody : ∀ p ∈ body, p.1 ≠ 0)
    (hrest : atBoundary rest = true) :
    (∃ r : DxfInsert,
      events (readAll ((0, "INSERT") :: body ++ rest)).out
        = Event.addENTITY (DxfEntity.insert r) :: events (readAll rest).out ∧
      (∀ xs v ys, body = xs ++ (2, v) :: ys → (∀ p ∈ ys, p.1 ≠ 2) →
        r.block = v) ∧
      (∀ xs v ys, body = xs ++ (8, v) :: ys → (∀ p ∈ ys, p.1 ≠ 8) →
        r.layer = v) ∧
      (∀ xs v ys, body = xs ++ (10, v) :: ys → (∀ p ∈ ys, p.1 ≠ 10) →
        r.x = toDouble v) ∧
      (∀ xs v ys, body = xs ++ (20, v) :: ys → (∀ p ∈ ys, p.1 ≠ 20) →
        r.y = toDouble v) ∧
      (∀ xs v ys, body = xs ++ (30, v) :: ys → (∀ p ∈ ys, p.1 ≠ 30) →
        r.z = toDouble v)) ∧
    (∃ r : DxfText,
      events (readAll ((0, "TEXT") :: body ++ rest)).out
        = Event.addENTITY (DxfEntity.text r) :: events (readAll rest).out ∧
      (∀ xs v ys, body = xs ++ (1, v) :: ys → (∀ p ∈ ys, p.1 ≠ 1) →
        r.text = v) ∧
      (∀ xs v ys, body = xs ++ (8, v) :: ys → (∀ p ∈ ys, p.1 ≠ 8) →
        r.layer = v) ∧
      (∀ xs v ys, body = xs ++ (10, v) :: ys → (∀ p ∈ ys, p.1 ≠ 10) →
        r.x = toDouble v) ∧
      (∀ xs v ys, body = xs ++ (20, v) :: ys → (∀ p ∈ ys, p.1 ≠ 20) →
        r.y = toDouble v) ∧
      (∀ xs v ys, body = xs ++ (30, v) :: ys → (∀ p ∈ ys, p.1 ≠ 30) →
        r.z = toDouble v) ∧
      (∀ xs v ys, body = xs ++ (40, v) :: ys → (∀ p ∈ ys, p.1 ≠ 40) →
        r.size = toDouble v) ∧
      (∀ xs v ys, body = xs ++ (50, v) :: ys → (∀ p ∈ ys, p.1 ≠ 50) →
        r.rotation = toDouble v)) ∧
    (∃ r : DxfLine,
      events (readAll ((0, "LINE") :: body ++ rest)).out
        = Event.addENTITY (DxfEntity.line r) :: events (readAll rest).out ∧
      (∀ xs v ys, body = xs ++ (8, v) :: ys → (∀ p ∈ ys, p.1 ≠ 8) →
        r.layer = v) ∧
      (∀ xs v ys, body = xs ++ (10, v) :: ys → (∀ p ∈ ys, p.1 ≠ 10) →
        r.x1 = toDouble v) ∧
      (∀ xs v ys, body = xs ++ (20, v) :: ys → (∀ p ∈ ys, p.1 ≠ 20) →
        r.y1 = toDouble v) ∧
      (∀ xs v ys, body = xs ++ (30, v) :: ys → (∀ p ∈ ys, p.1 ≠ 30) →
        r.z1 = toDouble v) ∧
      (∀ xs v ys, body = xs ++ (11, v) :: ys → (∀ p ∈ ys, p.1 ≠ 11) →
        r.x2 = toDouble v) ∧
      (∀ xs v ys, body = xs ++ (21, v) :: ys → (∀ p ∈ ys, p.1 ≠ 21) →
        r.y2 = toDouble v) ∧
      (∀ xs v ys, body = xs ++ (31, v) :: ys → (∀ p ∈ ys, p.1 ≠ 31) →
        r.z2 = toDouble v)) ∧
    (∃ r : DxfPoint,
      events (readAll ((0, "POINT") :: body ++ rest)).out
        = Event.addENTITY (DxfEntity.point r) :: events (readAll rest).out ∧
      (∀ xs v ys, body = xs ++ (8, v) :: ys → (∀ p ∈ ys, p.1 ≠ 8) →
        r.layer = v) ∧
      (∀ xs v ys, body = xs ++ (10, v) :: ys → (∀ p ∈ ys, p.1 ≠ 10) →
        r.x = toDouble v) ∧
      (∀ xs v ys, body = xs ++ (20, v) :: ys → (∀ p ∈ ys, p.1 ≠ 20) →
        r.y = toDouble v) ∧
      (∀ xs v ys, body = xs ++ (30, v) :: ys → (∀ p ∈ ys, p.1 ≠ 30) →
        r.z = toDouble v)) := by
  obtain ⟨_, _, h3, h4, h5, h6, _, _⟩ := events_readAll_closed body rest hbody hrest
  refine ⟨?_, ?_, ?_, ?_⟩
  · exact ⟨_, h3,
      fun xs v ys e h => strAttr_last _ _ xs ys v _ e h,
      fun xs v ys e h => strAttr_last _ _ xs ys v _ e h,
      fun xs v ys e h => numAttr_last _ _ xs ys v _ e h,
      fun xs v ys e h => numAttr_last _ _ xs ys v _ e h,
      fun xs v ys e h => numAttr_last _ _ xs ys v _ e h⟩
  · exact ⟨_, h4,
      fun xs v ys e h => strAttr_last _ _ xs ys v _ e h,
      fun xs v ys e h => strAttr_last _ _ xs ys v _ e h,
      fun xs v ys e h => numAttr_last _ _ xs ys v _ e h,
      fun xs v ys e h => numAttr_last _ _ xs ys v _ e h,
      fun xs v ys e h => numAttr_last _ _ xs ys v _ e h,
      fun xs v ys e h => numAttr_last _ _ xs ys v _ e h,
      fun xs v ys e h => numAttr_last _ _ xs ys v _ e h⟩
  · exact ⟨_, h5,
      fun xs v ys e h => strAttr_last _ _ xs ys v _ e h,
      fun xs v ys e h => numAttr_last _ _ xs ys v _ e h,
      fun xs v ys e h => numAttr_last _ _ xs ys v _ e h,
      fun xs v ys e h => numAttr_last _ _ xs ys v _ e h,
      fun xs v ys e h => numAttr_last _ _ xs ys v _ e h,
      fun xs v ys e h => numAttr_last _ _ xs ys v _ e h,
      fun xs v ys e h => numAttr_last _ _ xs ys v _ e h⟩
  · exact ⟨_, h6,
      fun xs v ys e h => strAttr_last _ _ xs ys v _ e h,
      fun xs v ys e h => numAttr_last _ _ xs ys v _ e h,
      fun xs v ys e h => numAttr_last _ _ xs ys v _ e h,
      fun xs v ys e h => numAttr_last _ _ xs ys v _ e h⟩

theorem last_field_wins_witness :
    ∃ r : DxfPoint,
      events (readAll ((0, "POINT") :: [(10, "1"), (8, "L"), (10, "2.5")] ++ [(0, "EOF")])).out
        = Event.addENTITY (DxfEntity.point r) :: events (readAll [(0, "EOF")]).out ∧
      (∀ xs v ys, [((10 : Int), "1"), (8, "L"), (10, "2.5")] = xs ++ (8, v) :: ys →
        (∀ p ∈ ys, p.1 ≠ 8) → r.layer = v) ∧
      (∀ xs v ys, [((10 : Int), "1"), (8, "L"), (10, "2.5")] = xs ++ (10, v) :: ys →
        (∀ p ∈ ys, p.1 ≠ 10) → r.x = toDouble v) ∧
      (∀ xs v ys, [((10 : Int), "1"), (8, "L"), (10, "2.5")] = xs ++ (20, v) :: ys →
        (∀ p ∈ ys, p.1 ≠ 20) → r.y = toDouble v) ∧
      (∀ xs v ys, [((10 : Int), "1"), (8, "L"), (10, "2.5")] = xs ++ (30, v) :: ys →
        (∀ p ∈ ys, p.1 ≠ 30) → r.z = toDouble v) :=
  (last_field_wins [(10, "1"), (8, "L"), (10, "2.5")] [(0, "EOF")] (by decide) rfl).2.2.2

/-- C10, counterexample.  SECTION A, SECTION B, EOF: the run calls
`addSECTION "A"` and then `addSECTION "B"` with no `addENDSEC` between them, so
two sections are open at the same time. -/
theorem nesting_depth_counterexample :
    events (readAll [(0, "SECTION"), (2, "A"), (0, "SECTION"), (2, "B"), (0, "EOF")]).out
        = [Event.addSECTION "A", Event.addSECTION "B"] ∧
      nestingOK ((events (readAll
        [(0, "SECTION"), (2, "A"), (0, "SECTION"), (2, "B"), (0, "EOF")]).out).filterMap
          eventMark) = false := by
  decide!

/-- C10, as amended.  The reader does not enforce the nesting depth.  What
holds is that it hands the grouping of the input on unchanged: for a stream
that is empty or begins with a code-0 pair, the grouping calls made on the sink
are, one for one and in order, the grouping records the dispatcher reads before
the terminal record; and for every input stream whose grouping records have
depth at most 1 for Section, Block and Polyline, so have the calls made on the
sink. -/
theorem nesting_mirrors_input (src : List Pair) :
    (atBoundary src = true →
      (events (readAll src).out).filterMap eventMark
        = (recordKeywords src).filterMap keywordMark) ∧
      (nestingOK ((recordKeywords src).filterMap keywordMark) = true →
        nestingOK ((events (readAll src).out).filterMap eventMark) = true) := by
  have h := marks_readAll src
  exact ⟨fun _ => h, fun hn => by rw [h]; exact hn⟩

theorem nesting_mirrors_input_witness :
    (events (readAll [(0, "SECTION"), (2, "A"), (0, "POLYLINE"), (0, "VERTEX"), (0, "SEQEND"),
        (0, "ENDSEC"), (0, "SECTION"), (2, "B"), (0, "ENDSEC"), (0, "EOF")]).out).filterMap
          eventMark
        = (recordKeywords [(0, "SECTION"), (2, "A"), (0, "POLYLINE"), (0, "VERTEX"),
            (0, "SEQEND"), (0, "ENDSEC"), (0, "SECTION"), (2, "B"), (0, "ENDSEC"),
            (0, "EOF")]).filterMap keywordMark ∧
      nestingOK ((events (readAll [(0, "SECTION"), (2, "A"), (0, "POLYLINE"), (0, "VERTEX"),
        (0, "SEQEND"), (0, "ENDSEC"), (0, "SECTION"), (2, "B"), (0, "ENDSEC"),
        (0, "EOF")]).out).filterMap eventMark) = true :=
  ⟨(nesting_mirrors_input [(0, "SECTION"), (2, "A"), (0, "POLYLINE"), (0, "VERTEX"),
      (0, "SEQEND"), (0, "ENDSEC"), (0, "SECTION"), (2, "B"), (0, "ENDSEC"), (0, "EOF")]).1 rfl,
    (nesting_mirrors_input [(0, "SECTION"), (2, "A"), (0, "POLYLINE"), (0, "VERTEX"),
      (0, "SEQEND"), (0, "ENDSEC"), (0, "SECTION"), (2, "B"), (0, "ENDSEC"), (0, "EOF")]).2
      (by decide)⟩

/-- C11. Forward progress.  For every stream the loop of `readAll` exits within
as many iterations as the stream has pairs (the run cut off after that many
iterations is the run `readAll` makes), and the number of loop iterations of
the whole run, those of the field loops and of `skip` included, is at most the
length of the stream.  Every iteration of the dispatcher that calls a reader
consumes the record-start pair and leaves a suffix of what followed it; every
field loop, and `skip`, consumes exactly one pair per iteration: a counter
added to the body of the loop ends at the number of pairs consumed. -/
theorem forward_progress (src : List Pair) :
    (∃ k, readAllWithin src.length src = some (readAll src, k) ∧ k ≤ src.length) ∧
      (∀ cur l r, readAllBody cur l = some r →
        r.rest.length < (cur :: l).length ∧ ∃ consumed, l = consumed ++ r.rest) ∧
      (∀ (σ : Type) (body : σ → Pair → σ × List Output) (s : σ) (l : List Pair),
        whileReadNoZero (counted body) (s, 0) l =
          (((whileReadNoZero body s l).1, l.length - (whileReadNoZero body s l).2.2.length),
            (whileReadNoZero body s l).2.1, (whileReadNoZero body s l).2.2) ∧
        (whileReadNoZero body s l).2.2.length ≤ l.length) ∧
      (∀ l, (skip l).length ≤ l.length ∧ ∃ consumed, l = consumed ++ skip l) := by
  refine ⟨readAllWithin_enough src src.length (Nat.le_refl _), ?_, ?_, ?_⟩
  · intro cur l r h
    have hr := readAllBody_rest cur l r h
    have hlen := afterFields_length_le l
    refine ⟨by rw [hr]; simp only [List.length_cons]; omega, fields l, ?_⟩
    rw [hr, fields_append_afterFields]
  · intro σ body s l
    refine ⟨?_, ?_⟩
    · have := whileReadNoZero_counted body l s 0
      simpa using this
    · rw [whileReadNoZero_rest]; exact afterFields_length_le l
  · intro l
    rw [skip_eq]
    exact ⟨afterFields_length_le l, fields l, (fields_append_afterFields l).symm⟩

theorem forward_progress_witness :
    ∃ k, readAllWithin 5 [(0, "FOO"), (99, "x"), (98, "y"), (0, "BAR"), (97, "z")]
        = some (readAll [(0, "FOO"), (99, "x"), (98, "y"), (0, "BAR"), (97, "z")], k) ∧
      k ≤ 5 :=
  (forward_progress [(0, "FOO"), (99, "x"), (98, "y"), (0, "BAR"), (97, "z")]).1

/-- C12. Section open handler: for every SECTION record, `readSECTION` makes
exactly one call `addSECTION name` on the sink, as the last thing it does, after
its loop has consumed the whole body (it leaves exactly what follows the body).
The name is the empty string when the body has no code-2 pair, and the value of
the last code-2 pair otherwise; it depends on the code-2 pairs of the body only:
pairs with another code do not affect it. -/
theorem section_open_handler (cur : Pair) (src : List Pair) :
    ∃ name : String,
      events (readSECTION cur src).out = [Event.addSECTION name] ∧
      (readSECTION cur src).out.getLast? = some (Output.sink (Event.addSECTION name)) ∧
      (readSECTION cur src).rest = afterFields src ∧
      ((∀ p ∈ fields src, p.1 ≠ 2) → name = "") ∧
      (∀ xs v ys, fields src = xs ++ (2, v) :: ys → (∀ p ∈ ys, p.1 ≠ 2) → name = v) ∧
      (∀ cur1 src1,
        (fields src1).filter (fun p => decide (p.1 = 2))
          = (fields src).filter (fun p => decide (p.1 = 2)) →
        events (readSECTION cur1 src1).out = [Event.addSECTION name]) := by
  obtain ⟨h1, _⟩ := events_readers cur src
  obtain ⟨⟨l1, l2⟩, _⟩ := readers_emit_last cur src
  refine ⟨strAttr 2 (fields src) "", ?_, ?_, l2, ?_, ?_, ?_⟩
  · rw [h1, runFields_sectionField]
  · rw [l1, runFields_sectionField]
  · exact fun h => strAttr_absent _ _ _ h
  · exact fun xs v ys e h => strAttr_last _ _ xs ys v _ e h
  · intro cur1 src1 e
    rw [(events_readers cur1 src1).1, runFields_sectionField]
    unfold strAttr
    rw [← lastValue_filter 2 (fields src1), e, lastValue_filter]

theorem section_open_handler_witness :
    ∃ name : String,
      events (readSECTION (0, "SECTION") [(2, "A"), (9, "x"), (2, "B"), (0, "EOF")]).out
        = [Event.addSECTION name] ∧
      (readSECTION (0, "SECTION") [(2, "A"), (9, "x"), (2, "B"), (0, "EOF")]).out.getLast?
        = some (Output.sink (Event.addSECTION name)) ∧
      (readSECTION (0, "SECTION") [(2, "A"), (9, "x"), (2, "B"), (0, "EOF")]).rest
        = afterFields [(2, "A"), (9, "x"), (2, "B"), (0, "EOF")] ∧
      ((∀ p ∈ fields [(2, "A"), (9, "x"), (2, "B"), (0, "EOF")], p.1 ≠ 2) → name = "") ∧
      (∀ xs v ys, fields [(2, "A"), (9, "x"), (2, "B"), (0, "EOF")] = xs ++ (2, v) :: ys →
        (∀ p ∈ ys, p.1 ≠ 2) → name = v) ∧
      (∀ cur1 src1,
        (fields src1).filter (fun p => decide (p.1 = 2))
          = (fields [(2, "A"), (9, "x"), (2, "B"), (0, "EOF")]).filter
            (fun p => decide (p.1 = 2)) →
        events (readSECTION cur1 src1).out = [Event.addSECTION name]) :=
  section_open_handler (0, "SECTION") [(2, "A"), (9, "x"), (2, "B"), (0, "EOF")]

/-- C13. Block open handler.  It is order-independent: two BLOCK records whose
bodies are permutations of each other, with pairwise distinct codes, make the
same call on the sink.  And for every body `readBLOCK` makes exactly one call
`addBLOCK`, as the last thing it does, after its loop has consumed all the pairs
up to the next code-0 pair or the end of the stream; the record has the layer
from code 8, the name from code 2, the flags from code 70 and the insertion
point from the codes 10, 20, 30. -/
theorem block_open_handler (cur : Pair) (src : List Pair) :
    (∀ cur1 src1, (fields src).Perm (fields src1) → ((fields src).map Prod.fst).Nodup →
      events (readBLOCK cur1 src1).out = events (readBLOCK cur src).out) ∧
    events (readBLOCK cur src).out
      = [Event.addBLOCK
          { layer := strAttr 8 (fields src) "", name := strAttr 2 (fields src) "",
            flags := intAttr 70 (fields src) 0, x := numAttr 10 (fields src) 0,
            y := numAttr 20 (fields src) 0, z := numAttr 30 (fields src) 0 }] ∧
    (readBLOCK cur src).out.getLast?
      = some (Output.sink (Event.addBLOCK
          { layer := strAttr 8 (fields src) "", name := strAttr 2 (fields src) "",
            flags := intAttr 70 (fields src) 0, x := numAttr 10 (fields src) 0,
            y := numAttr 20 (fields src) 0, z := numAttr 30 (fields src) 0 })) ∧
    (readBLOCK cur src).rest = afterFields src := by
  have hb := (events_readers cur src).2.2.1
  obtain ⟨_, ⟨l1, l2⟩, _⟩ := readers_emit_last cur src
  refine ⟨?_, ?_, ?_, l2⟩
  · intro cur1 src1 hperm hnd
    rw [hb, (events_readers cur1 src1).2.2.1, runFields_blockField, runFields_blockField]
    have e : ∀ c, lastValue c (fields src) = lastValue c (fields src1) :=
      fun c => lastValue_perm c _ _ hperm hnd
    simp only [strAttr, numAttr, intAttr, e]
  · rw [hb, runFields_blockField]
  · rw [l1, runFields_blockField]

theorem block_open_handler_witness :
    events (readBLOCK (0, "BLOCK") [(10, "1.5"), (2, "B1"), (8, "L"), (70, "2"), (0, "ENDBLK")]).out
      = events (readBLOCK (0, "BLOCK") [(8, "L"), (2, "B1"), (70, "2"), (10, "1.5")]).out :=
  (block_open_handler (0, "BLOCK") [(8, "L"), (2, "B1"), (70, "2"), (10, "1.5")]).1
    (0, "BLOCK") [(10, "1.5"), (2, "B1"), (8, "L"), (70, "2"), (0, "ENDBLK")]
    (by decide) (by decide)

/-- C14, counterexample.  The readers of SECTION and of BLOCK are silent too:
on a body with the pair `(99, "x")`, whose code neither of them recognizes,
`readSECTION` and `readBLOCK` write no diagnostic (nor does the whole run on
such a record). -/
theorem diagnostic_asymmetry_counterexample :
    (99 : Int) ∉ recognizedCodes "SECTION" ∧
      diags (readSECTION (0, "SECTION") [(99, "x")]).out = [] ∧
      diags (readAll [(0, "SECTION"), (99, "x"), (0, "EOF")]).out = [] ∧
      (99 : Int) ∉ recognizedCodes "BLOCK" ∧
      diags (readBLOCK (0, "BLOCK") [(99, "x")]).out = [] ∧
      diags (readAll [(0, "BLOCK"), (99, "x"), (0, "EOF")]).out = [] := by
  decide!

/-- C14, as amended.  Three record readers drop an unrecognized field code
silently, not one: for every body `readVERTEX`, `readSECTION` and `readBLOCK`
write no diagnostic at all, whereas each of the other readers that read fields
(INSERT, TEXT, LINE, POINT, POLYLINE) writes a diagnostic for each field whose
code it does not recognize. -/
theorem diagnostic_asymmetry (cur : Pair) (src : List Pair) :
    diags (readVERTEX cur src).out = [] ∧
    diags (readSECTION cur src).out = [] ∧
    diags (readBLOCK cur src).out = [] ∧
    (∀ p ∈ fields src, p.1 ∉ recognizedCodes "INSERT" →
      Diag.unhandled p.1 p.2 "readINSERT" ∈ diags (readINSERT cur src).out) ∧
    (∀ p ∈ fields src, p.1 ∉ recognizedCodes "TEXT" →
      Diag.unhandled p.1 p.2 "readTEXT" ∈ diags (readTEXT cur src).out) ∧
    (∀ p ∈ fields src, p.1 ∉ recognizedCodes "LINE" →
      Diag.unhandled p.1 p.2 "readLINE" ∈ diags (readLINE cur src).out) ∧
    (∀ p ∈ fields src, p.1 ∉ recognizedCodes "POINT" →
      Diag.unhandled p.1 p.2 "readPOINT" ∈ diags (readPOINT cur src).out) ∧
    (∀ p ∈ fields src, p.1 ∉ recognizedCodes "POLYLINE" →
      Diag.unhandled p.1 p.2 "readPOLYLINE" ∈ diags (readPOLYLINE cur src).out) := by
  obtain ⟨d1, d2, d3, d4, d5, d6, d7, d8⟩ := diags_readers cur src
  have key : ∀ (codes : List Int) (name : String) (p : Pair), p ∈ fields src → p.1 ∉ codes →
      Diag.unhandled p.1 p.2 name ∈
        ((fields src).filter (fun q => decide (q.1 ∉ codes))).map
          (fun q => Diag.unhandled q.1 q.2 name) := by
    intro codes name p hp hc
    exact List.mem_map.2 ⟨p, List.mem_filter.2 ⟨hp, by simpa using hc⟩, rfl⟩
  refine ⟨d8, d1, d2, ?_, ?_, ?_, ?_, ?_⟩
  · intro p hp hc; rw [d3]; exact key _ _ p hp hc
  · intro p hp hc; rw [d4]; exact key _ _ p hp hc
  · intro p hp hc; rw [d5]; exact key _ _ p hp hc
  · intro p hp hc; rw [d6]; exact key _ _ p hp hc
  · intro p hp hc; rw [d7]; exact key _ _ p hp hc

theorem diagnostic_asymmetry_witness :
    Diag.unhandled 62 "7" "readLINE"
      ∈ diags (readLINE (0, "LINE") [(8, "L"), (62, "7"), (10, "1"), (0, "EOF")]).out :=
  (diagnostic_asymmetry (0, "LINE") [(8, "L"), (62, "7"), (10, "1"), (0, "EOF")]).2.2.2.2.2.1
    (62, "7") (by decide) (by decide)

/-- C15. Diagnostics of the simple entity readers.  For INSERT, TEXT, LINE,
POINT and POLYLINE and every body, the lines the reader writes with `qDebug()`
are, in body order, one `unhandled` line for each pair of the body whose code
is outside the recognized set of the kind, with the code of the pair, its raw
value and the name of the reader; a pair with a recognized code writes none.
The recognized sets are the codes the reader compares with, those it does not
store included (7 in TEXT; 38, 39, 50 in POINT; 66 in POLYLINE): on such a pair
the loop body leaves the record as it is and writes nothing, so the record
passed to the sink is the same with or without the pair. -/
theorem simple_reader_diagnostics (cur : Pair) (src : List Pair) :
    (diags (readINSERT cur src).out
      = ((fields src).filter (fun p => decide (p.1 ∉ recognizedCodes "INSERT"))).map
          (fun p => Diag.unhandled p.1 p.2 "readINSERT") ∧
    diags (readTEXT cur src).out
      = ((fields src).filter (fun p => decide (p.1 ∉ recognizedCodes "TEXT"))).map
          (fun p => Diag.unhandled p.1 p.2 "readTEXT") ∧
    diags (readLINE cur src).out
      = ((fields src).filter (fun p => decide (p.1 ∉ recognizedCodes "LINE"))).map
          (fun p => Diag.unhandled p.1 p.2 "readLINE") ∧
    diags (readPOINT cur src).out
      = ((fields src).filter (fun p => decide (p.1 ∉ recognizedCodes "POINT"))).map
          (fun p => Diag.unhandled p.1 p.2 "readPOINT") ∧
    diags (readPOLYLINE cur src).out
      = ((fields src).filter (fun p => decide (p.1 ∉ recognizedCodes "POLYLINE"))).map
          (fun p => Diag.unhandled p.1 p.2 "readPOLYLINE")) ∧
    (recognizedCodes "INSERT" = [2, 8, 10, 20, 30] ∧
      recognizedCodes "TEXT" = [1, 7, 8, 10, 20, 30, 40, 50] ∧
      recognizedCodes "LINE" = [8, 10, 20, 30, 11, 21, 31] ∧
      recognizedCodes "POINT" = [8, 10, 20, 30, 38, 39, 50] ∧
      recognizedCodes "POLYLINE" = [66, 8, 70]) ∧
    ((∀ s v, textField s (7, v) = (s, [])) ∧
      (∀ s v, pointField s (38, v) = (s, [])) ∧
      (∀ s v, pointField s (39, v) = (s, [])) ∧
      (∀ s v, pointField s (50, v) = (s, [])) ∧
      (∀ s v, polylineField s (66, v) = (s, []))) ∧
    (∀ xs ys rest v, (∀ p ∈ xs, p.1 ≠ 0) → (∀ p ∈ ys, p.1 ≠ 0) → atBoundary rest = true →
      events (readTEXT cur (xs ++ (7, v) :: ys ++ rest)).out
        = events (readTEXT cur (xs ++ ys ++ rest)).out ∧
      events (readPOINT cur (xs ++ (38, v) :: ys ++ rest)).out
        = events (readPOINT cur (xs ++ ys ++ rest)).out ∧
      events (readPOINT cur (xs ++ (39, v) :: ys ++ rest)).out
        = events (readPOINT cur (xs ++ ys ++ rest)).out ∧
      events (readPOINT cur (xs ++ (50, v) :: ys ++ rest)).out
        = events (readPOINT cur (xs ++ ys ++ rest)).out ∧
      events (readPOLYLINE cur (xs ++ (66, v) :: ys ++ rest)).out
        = events (readPOLYLINE cur (xs ++ ys ++ rest)).out) := by
  obtain ⟨_, _, d3, d4, d5, d6, d7, _⟩ := diags_readers cur src
  obtain ⟨_, _, e3, e4, e5, e6, e7, _⟩ := recognizedCodes_known
  have f1 : ∀ s v, textField s (7, v) = (s, []) := by intro s v; simp [textField]
  have f2 : ∀ s v, pointField s (38, v) = (s, []) := by intro s v; simp [pointField]
  have f3 : ∀ s v, pointField s (39, v) = (s, []) := by intro s v; simp [pointField]
  have f4 : ∀ s v, pointField s (50, v) = (s, []) := by intro s v; simp [pointField]
  have f5 : ∀ s v, polylineField s (66, v) = (s, []) := by intro s v; simp [polylineField]
  refine ⟨⟨d3, d4, d5, d6, d7⟩, ⟨e3, e4, e5, e6, e7⟩, ⟨f1, f2, f3, f4, f5⟩, ?_⟩
  intro xs ys rest v hxs hys hrest
  have hb2 : ∀ p ∈ xs ++ ys, p.1 ≠ 0 := by
    intro p hp
    rcases List.mem_append.1 hp with h | h
    · exact hxs p h
    · exact hys p h
  have hb1 : ∀ (u : Pair), u.1 ≠ 0 → ∀ p ∈ xs ++ u :: ys, p.1 ≠ 0 := by
    intro u hu p hp
    rcases List.mem_append.1 hp with h | h
    · exact hxs p h
    · rcases List.mem_cons.1 h with h | h
      · rw [h]; exact hu
      · exact hys p h
  have g1 : ∀ (u : Pair), u.1 ≠ 0 → fields (xs ++ u :: ys ++ rest) = xs ++ u :: ys :=
    fun u hu => fields_append _ rest (hb1 u hu) hrest
  have g2 : fields (xs ++ ys ++ rest) = xs ++ ys := fields_append _ rest hb2 hrest
  obtain ⟨_, _, _, _, _, t1, _, p1, q1, _, _⟩ := events_readers cur (xs ++ ys ++ rest)
  refine ⟨?_, ?_, ?_, ?_, ?_⟩
  · rw [(events_readers cur _).2.2.2.2.2.1, t1, g1 _ (by simp), g2,
      runFields_skip _ _ (fun s => by rw [f1])]
  · rw [(events_readers cur _).2.2.2.2.2.2.2.1, p1, g1 _ (by simp), g2,
      runFields_skip _ _ (fun s => by rw [f2])]
  · rw [(events_readers cur _).2.2.2.2.2.2.2.1, p1, g1 _ (by simp), g2,
      runFields_skip _ _ (fun s => by rw [f3])]
  · rw [(events_readers cur _).2.2.2.2.2.2.2.1, p1, g1 _ (by simp), g2,
      runFields_skip _ _ (fun s => by rw [f4])]
  · rw [(events_readers cur _).2.2.2.2.2.2.2.2.1, q1, g1 _ (by simp), g2,
      runFields_skip _ _ (fun s => by rw [f5])]

theorem simple_reader_diagnostics_witness :
    events (readPOINT (0, "POINT") ([(8, "L")] ++ (38, "1.5") :: [(10, "2")] ++ [(0, "EOF")])).out
      = events (readPOINT (0, "POINT") ([(8, "L")] ++ [(10, "2")] ++ [(0, "EOF")])).out :=
  ((simple_reader_diagnostics (0, "POINT") [(8, "L"), (62, "7"), (0, "EOF")]).2.2.2
    [(8, "L")] [(10, "2")] [(0, "EOF")] "1.5" (by decide) (by decide) rfl).2.1


/-- C16. Record-boundary refinement: for every stream that is empty or begins
with a code-0 pair, the calls the streaming `readAll` makes on the sink are
those of the reference parser, which splits the stream into records at every
code-0 pair, truncates the list at the first record with the header value
"EOF", and maps each remaining record, independently, to its call.  Hence each
reader called by the dispatcher consumes exactly the body of its record and
leaves the next code-0 pair (or the end of the stream) for the dispatcher. -/
theorem record_boundary_refinement (src : List Pair) (h : atBoundary src = true) :
    events (readAll src).out = Reference.parse src ∧
      ∀ cur l r, readAllBody cur l = some r →
        l = fields l ++ r.rest ∧ (∀ p ∈ fields l, p.1 ≠ 0) ∧ atBoundary r.rest = true := by
  refine ⟨reference_parse_eq src h, ?_⟩
  intro cur l r hr
  have e := readAllBody_rest cur l r hr
  rw [e]
  exact ⟨(fields_append_afterFields l).symm, fields_isField l, atBoundary_afterFields l⟩

theorem record_boundary_refinement_witness :
    events (readAll [(0, "SECTION"), (2, "ENTITIES"), (0, "CIRCLE"), (40, "1"), (0, "POINT"),
        (10, "1"), (0, "ENDSEC"), (0, "EOF"), (0, "LINE")]).out
        = Reference.parse [(0, "SECTION"), (2, "ENTITIES"), (0, "CIRCLE"), (40, "1"),
            (0, "POINT"), (10, "1"), (0, "ENDSEC"), (0, "EOF"), (0, "LINE")] ∧
      ∀ cur l r, readAllBody cur l = some r →
        l = fields l ++ r.rest ∧ (∀ p ∈ fields l, p.1 ≠ 0) ∧ atBoundary r.rest = true :=
  record_boundary_refinement [(0, "SECTION"), (2, "ENTITIES"), (0, "CIRCLE"), (40, "1"),
    (0, "POINT"), (10, "1"), (0, "ENDSEC"), (0, "EOF"), (0, "LINE")] rfl


/-- C17. Structural anomalies are not a crash condition.  Whatever precedes it
(a stream `pre` that is empty or begins with a code-0 pair and has no terminal
record: in particular one with no SECTION, BLOCK or POLYLINE record at all), an
ENDSEC, ENDBLK, SEQEND or VERTEX record is handled like any other record: the
run makes the calls of what precedes, then `addENDSEC`, `addENDBLK`,
`addSEQEND` or `addVERTEX` of the record, then the calls of every later record,
and no assertion fails.  The handlers make their call unconditionally and
consume exactly the body of the record. -/
theorem structural_anomalies_handled (pre body rest : List Pair) (hpre : atBoundary pre = true)
    (hno : ((0 : Int), "EOF") ∉ pre) (hbody : ∀ p ∈ body, p.1 ≠ 0)
    (hrest : atBoundary rest = true) :
    (events (readAll (pre ++ ((0, "ENDSEC") :: body ++ rest))).out
        = events (readAll pre).out ++ (Event.addENDSEC :: events (readAll rest).out) ∧
      events (readAll (pre ++ ((0, "ENDBLK") :: body ++ rest))).out
        = events (readAll pre).out ++ (Event.addENDBLK :: events (readAll rest).out) ∧
      events (readAll (pre ++ ((0, "SEQEND") :: body ++ rest))).out
        = events (readAll pre).out ++ (Event.addSEQEND :: events (readAll rest).out) ∧
      events (readAll (pre ++ ((0, "VERTEX") :: body ++ rest))).out
        = events (readAll pre).out ++
          (Event.addVERTEX
              { layer := strAttr 8 body "", x := numAttr 10 body 0, y := numAttr 20 body 0,
                flags := intAttr 70 body 0 }
            :: events (readAll rest).out)) ∧
    (assertFailures (readAll (pre ++ ((0, "ENDSEC") :: body ++ rest))).out = [] ∧
      assertFailures (readAll (pre ++ ((0, "ENDBLK") :: body ++ rest))).out = [] ∧
      assertFailures (readAll (pre ++ ((0, "SEQEND") :: body ++ rest))).out = [] ∧
      assertFailures (readAll (pre ++ ((0, "VERTEX") :: body ++ rest))).out = []) ∧
    (∀ cur src,
      (events (readENDSEC cur src).out = [Event.addENDSEC] ∧
        (readENDSEC cur src).rest = afterFields src) ∧
      (events (readENDBLK cur src).out = [Event.addENDBLK] ∧
        (readENDBLK cur src).rest = afterFields src) ∧
      (events (readSEQEND cur src).out = [Event.addSEQEND] ∧
        (readSEQEND cur src).rest = afterFields src) ∧
      (events (readVERTEX cur src).out
          = [Event.addVERTEX (runFields vertexField {} (fields src))] ∧
        (readVERTEX cur src).rest = afterFields src)) := by
  obtain ⟨_, r2, _, r4, _, _, _, _, _, r10, r11⟩ := recordEvents_known
  have g : ∀ kw : String, kw ≠ "EOF" →
      events (readAll (pre ++ ((0, kw) :: body ++ rest))).out
        = events (readAll pre).out ++ (recordEvents kw body ++ events (readAll rest).out) :=
    fun kw hk => events_readAll_middle pre body rest kw hk hpre hno hbody hrest
  have a : ∀ kw : String, assertFailures (readAll (pre ++ ((0, kw) :: body ++ rest))).out = [] :=
    fun kw => assertFailures_readAll _ (atBoundary_append pre _ hpre rfl)
  refine ⟨⟨?_, ?_, ?_, ?_⟩, ⟨a _, a _, a _, a _⟩, ?_⟩
  · rw [g _ (by decide), r2]; rfl
  · rw [g _ (by decide), r4]; rfl
  · rw [g _ (by decide), r11]; rfl
  · rw [g _ (by decide), r10, runFields_vertexField]; rfl
  · intro cur src
    obtain ⟨m1, m2, m3⟩ := events_end_markers cur src
    obtain ⟨_, _, v1, v2⟩ := readers_emit_last cur src
    exact ⟨m1, m2, m3, (events_readers cur src).2.2.2.2.2.2.2.2.2.1, v2⟩

theorem structural_anomalies_handled_witness :
    events (readAll ([] ++ ((0, "SEQEND") :: [(8, "L")] ++ [(0, "POINT"), (10, "1")]))).out
      = events (readAll []).out
        ++ (Event.addSEQEND :: events (readAll [(0, "POINT"), (10, "1")]).out) :=
  (structural_anomalies_handled [] [(8, "L")] [(0, "POINT"), (10, "1")] rfl (by decide)
    (by decide) rfl).1.2.2.1

/-- C18. Vertex records are 2D.  The record `readVERTEX` passes to the sink has
the layer, x, y and flags of the last pairs of the body with the codes 8, 10,
20 and 70 (the zero defaults where there is none) and is determined by these
alone: two bodies with the same last values for these four codes make the same
call; and adding, removing or changing a pair with the code 30, or with any
other non-zero code outside 8, 10, 20, 70, never changes the call. -/
theorem vertex_records_are_2d (cur : Pair) (src : List Pair) :
    events (readVERTEX cur src).out
      = [Event.addVERTEX
          { layer := strAttr 8 (fields src) "", x := numAttr 10 (fields src) 0,
            y := numAttr 20 (fields src) 0, flags := intAttr 70 (fields src) 0 }] ∧
    (∀ cur1 src1, (∀ c ∈ [(8 : Int), 10, 20, 70],
        lastValue c (fields src1) = lastValue c (fields src)) →
      events (readVERTEX cur1 src1).out = events (readVERTEX cur src).out) ∧
    (∀ xs ys rest c v w, (∀ p ∈ xs, p.1 ≠ 0) → (∀ p ∈ ys, p.1 ≠ 0) → atBoundary rest = true →
      c ≠ 0 → c ∉ [(8 : Int), 10, 20, 70] →
      events (readVERTEX cur (xs ++ (c, v) :: ys ++ rest)).out
        = events (readVERTEX cur (xs ++ ys ++ rest)).out ∧
      events (readVERTEX cur (xs ++ (c, w) :: ys ++ rest)).out
        = events (readVERTEX cur (xs ++ (c, v) :: ys ++ rest)).out) ∧
    (∀ xs ys rest v w, (∀ p ∈ xs, p.1 ≠ 0) → (∀ p ∈ ys, p.1 ≠ 0) → atBoundary rest = true →
      events (readVERTEX cur (xs ++ (30, v) :: ys ++ rest)).out
        = events (readVERTEX cur (xs ++ ys ++ rest)).out ∧
      events (readVERTEX cur (xs ++ (30, w) :: ys ++ rest)).out
        = events (readVERTEX cur (xs ++ (30, v) :: ys ++ rest)).out) := by
  have hv : ∀ c l, events (readVERTEX c l).out
      = [Event.addVERTEX
          { layer := strAttr 8 (fields l) "", x := numAttr 10 (fields l) 0,
            y := numAttr 20 (fields l) 0, flags := intAttr 70 (fields l) 0 }] := by
    intro c l
    rw [(events_readers c l).2.2.2.2.2.2.2.2.2.1, runFields_vertexField]
  have main : ∀ xs ys rest c v w, (∀ p ∈ xs, p.1 ≠ 0) → (∀ p ∈ ys, p.1 ≠ 0) →
      atBoundary rest = true → c ≠ 0 → c ∉ [(8 : Int), 10, 20, 70] →
      events (readVERTEX cur (xs ++ (c, v) :: ys ++ rest)).out
        = events (readVERTEX cur (xs ++ ys ++ rest)).out ∧
      events (readVERTEX cur (xs ++ (c, w) :: ys ++ rest)).out
        = events (readVERTEX cur (xs ++ (c, v) :: ys ++ rest)).out := by
    intro xs ys rest c v w hxs hys hrest hc0 hc
    have hb2 : ∀ p ∈ xs ++ ys, p.1 ≠ 0 := by
      intro p hp
      rcases List.mem_append.1 hp with h | h
      · exact hxs p h
      · exact hys p h
    have hb1 : ∀ u : String, ∀ p ∈ xs ++ (c, u) :: ys, p.1 ≠ 0 := by
      intro u p hp
      rcases List.mem_append.1 hp with h | h
      · exact hxs p h
      · rcases List.mem_cons.1 h with h | h
        · rw [h]; exact hc0
        · exact hys p h
    have hskip : ∀ u : String, ∀ s, (vertexField s (c, u)).1 = s := by
      intro u
      apply (field_unrecognized (c, u)).2.2.2.2.2.2.2
      rw [recognizedCodes_known.2.2.2.2.2.2.2]
      exact hc
    have e : ∀ u : String, events (readVERTEX cur (xs ++ (c, u) :: ys ++ rest)).out
        = events (readVERTEX cur (xs ++ ys ++ rest)).out := by
      intro u
      rw [(events_readers cur _).2.2.2.2.2.2.2.2.2.1, (events_readers cur _).2.2.2.2.2.2.2.2.2.1,
        fields_append _ rest (hb1 u) hrest, fields_append _ rest hb2 hrest,
        runFields_skip _ _ (hskip u)]
    exact ⟨e v, by rw [e w, e v]⟩
  refine ⟨hv cur src, ?_, main, ?_⟩
  · intro cur1 src1 h
    rw [hv, hv]
    simp only [strAttr, numAttr, intAttr, h 8 (by decide), h 10 (by decide), h 20 (by decide),
      h 70 (by decide)]
  · intro xs ys rest v w hxs hys hrest
    exact main xs ys rest 30 v w hxs hys hrest (by decide) (by decide)

theorem vertex_records_are_2d_witness :
    events (readVERTEX (0, "VERTEX") ([(10, "1")] ++ (30, "9") :: [(20, "2")] ++ [(0, "SEQEND")])).out
        = events (readVERTEX (0, "VERTEX") ([(10, "1")] ++ [(20, "2")] ++ [(0, "SEQEND")])).out ∧
      events (readVERTEX (0, "VERTEX")
          ([(10, "1")] ++ (30, "7") :: [(20, "2")] ++ [(0, "SEQEND")])).out
        = events (readVERTEX (0, "VERTEX")
          ([(10, "1")] ++ (30, "9") :: [(20, "2")] ++ [(0, "SEQEND")])).out :=
  (vertex_records_are_2d (0, "VERTEX") []).2.2.2 [(10, "1")] [(20, "2")] [(0, "SEQEND")]
    "9" "7" (by decide) (by decide) rfl

/-- C19. Assertion validity.  On a stream that is empty or begins with a code-0
pair no assertion executed by the run fails.  This is so because the pairs a
reader (or `skip`) leaves are empty or begin with a code-0 pair, so the
assertion of the dispatcher holds on every iteration; because every reader the
dispatcher calls on a code-0 pair sees `code() == 0` and its own keyword; and
because the loop of `readLINE` only reads pairs with a non-zero code.
Conversely, on a stream whose first pair has a non-zero code the first thing
the run does is to fail the assertion of the dispatcher. -/
theorem assertions_hold (src : List Pair) :
    (atBoundary src = true → assertFailures (readAll src).out = []) ∧
    (∀ cur l r, readAllBody cur l = some r → atBoundary r.rest = true) ∧
    (∀ cur l, cur.1 = 0 → assertFailures (recordOut cur l) = []) ∧
    (∀ s l, assertFailures (whileReadNoZero lineField s l).2.1 = []) ∧
    (∀ cur l, cur.1 ≠ 0 →
      (readAll (cur :: l)).out.head? = some (Output.assertFailed "code() == 0")) := by
  refine ⟨assertFailures_readAll src, ?_, ?_, ?_, ?_⟩
  · intro cur l r h
    rw [readAllBody_rest cur l r h]
    exact atBoundary_afterFields l
  · intro cur l hc
    exact assertFailures_recordOut cur l hc
  · intro s l
    exact whileReadNoZero_assertFailures _ assertFailures_field_loops.2.2.2.2.1 l s
  · intro cur l hc
    have hq : Q_ASSERT (decide (cur.1 = 0)) "code() == 0" = [Output.assertFailed "code() == 0"] := by
      simp [Q_ASSERT, hc]
    rw [readAll_cons]
    cases readAllBody cur l with
    | none => simp only [hq]; rfl
    | some r => simp only [hq]; rfl

theorem assertions_hold_witness :
    assertFailures (readAll [(0, "SECTION"), (2, "ENTITIES"), (0, "LINE"), (8, "0"), (10, "1.0"),
        (0, "FOO"), (1, "x"), (0, "ENDSEC"), (0, "EOF")]).out = [] ∧
      (readAll [(8, "0"), (0, "LINE")]).out.head? = some (Output.assertFailed "code() == 0") :=
  ⟨(assertions_hold [(0, "SECTION"), (2, "ENTITIES"), (0, "LINE"), (8, "0"), (10, "1.0"),
      (0, "FOO"), (1, "x"), (0, "ENDSEC"), (0, "EOF")]).1 rfl,
    (assertions_hold []).2.2.2.2 (8, "0") [(0, "LINE")] (by decide)⟩

end DxfReader
